import Mathlib

set_option maxHeartbeats 1000000

/-!
Shallow embedding of the BVH core in
`BVH and Collision Detection/application.cpp`:

* `construct`       — `Application::construct` (lines 19-152): top-down BVH build.
* `test_collision`  — `Application::test_collision` (lines 163-234): synchronized
  dual-tree descent that mutates collision flags.

Machine `float` coordinates are embedded as exact rationals; `int` parameters as
`Int`.  Triangles are handled through non-owning pointers in the source, so a
triangle carries a pointer identity `tid` and the set of triangle collision
flags that are `true` is a `Finset ℕ` of identities.  Node collision flags live
inside the tree value, and the mutating `test_collision` is embedded as a
function returning the updated first tree, updated second tree and updated
triangle flag set.
-/

/-- `glm::vec4`, with rational coordinates. -/
structure Vec4 where
  x : Rat
  y : Rat
  z : Rat
  w : Rat
deriving DecidableEq, Repr

/-- A triangle of the framework: three homogeneous vertices `v1`, `v2`, `v3`.
`tid` is the pointer identity of the triangle object (the BVH stores
`Triangle*`), used to address its mutable collision flag. -/
structure Triangle where
  tid : Nat
  v1 : Vec4
  v2 : Vec4
  v3 : Vec4
deriving DecidableEq, Repr

/-- Modelled from the spec: `Triangle::getVertices` is declared in the missing
framework header; per §3 a triangle is "three vertices in homogeneous
local-space coordinates", so it yields `v1, v2, v3`. -/
def Triangle.getVertices (t : Triangle) : List Vec4 :=
  [t.v1, t.v2, t.v3]

/-- `glm::mat4`, as four columns. -/
structure Mat4 where
  c0 : Vec4
  c1 : Vec4
  c2 : Vec4
  c3 : Vec4
deriving DecidableEq, Repr

/-!
The Lean library seals rational `+`, `-`, `*`, `⁻¹` against kernel evaluation,
so the embedding computes with explicit normalized-fraction versions of the
four field operations; `rAdd_eq`, `rSub_eq`, `rMul_eq` and `rDiv_eq` below
prove them equal to the field operations of `Rat`.
-/

/-- Rational addition, kernel-computable. -/
def rAdd (a b : Rat) : Rat :=
  mkRat (a.num * b.den + b.num * a.den) (a.den * b.den)

/-- Rational subtraction, kernel-computable. -/
def rSub (a b : Rat) : Rat :=
  mkRat (a.num * b.den - b.num * a.den) (a.den * b.den)

/-- Rational multiplication, kernel-computable. -/
def rMul (a b : Rat) : Rat :=
  mkRat (a.num * b.num) (a.den * b.den)

/-- Rational division, kernel-computable. -/
def rDiv (a b : Rat) : Rat :=
  Rat.divInt (a.num * b.den) (b.num * a.den)

theorem rAdd_eq (a b : Rat) : rAdd a b = a + b := by
  rw [rAdd, Rat.add_def, Rat.normalize_eq_mkRat]

theorem rSub_eq (a b : Rat) : rSub a b = a - b := by
  rw [rSub, Rat.sub_def, Rat.normalize_eq_mkRat]

theorem rMul_eq (a b : Rat) : rMul a b = a * b := by
  rw [rMul, Rat.mul_def, Rat.normalize_eq_mkRat]

theorem rDiv_eq (a b : Rat) : rDiv a b = a / b := by
  rw [rDiv, Rat.divInt_eq_div]
  conv_rhs => rw [← Rat.num_div_den a, ← Rat.num_div_den b]
  push_cast
  simp only [div_eq_mul_inv, mul_inv, inv_inv]
  ring

/-
Inside this section the four arithmetic operations are opaque to the
elaborator, which keeps the symbolic proofs below from descending into
their numeral computations; the section ends before the concrete
evaluation lemmas, which need the operations to reduce.
-/
section SealedArith

attribute [local irreducible] rAdd rSub rMul rDiv

/-- glm matrix-vector product `m * v` (linear combination of the columns). -/
def mulMV (m : Mat4) (v : Vec4) : Vec4 :=
  ⟨rAdd (rAdd (rMul m.c0.x v.x) (rMul m.c1.x v.y))
     (rAdd (rMul m.c2.x v.z) (rMul m.c3.x v.w)),
   rAdd (rAdd (rMul m.c0.y v.x) (rMul m.c1.y v.y))
     (rAdd (rMul m.c2.y v.z) (rMul m.c3.y v.w)),
   rAdd (rAdd (rMul m.c0.z v.x) (rMul m.c1.z v.y))
     (rAdd (rMul m.c2.z v.z) (rMul m.c3.z v.w)),
   rAdd (rAdd (rMul m.c0.w v.x) (rMul m.c1.w v.y))
     (rAdd (rMul m.c2.w v.z) (rMul m.c3.w v.w))⟩

/-- Modelled from the spec: the `BVHNode` class is declared in the missing
framework header.  Per §3 it is an AABB (`min`, `max` corners), the list of
referenced triangles, a mutable boolean collision flag (initially false), and
two optional children (a null pointer in the source is `none` here). -/
inductive BVHNode where
  | mk (mn mx : Vec4) (tris : List Triangle) (col : Bool)
       (left right : Option BVHNode)

/-- `BVHNode::get_min`. -/
def BVHNode.get_min : BVHNode → Vec4
  | .mk mn _ _ _ _ _ => mn

/-- `BVHNode::get_max`. -/
def BVHNode.get_max : BVHNode → Vec4
  | .mk _ mx _ _ _ _ => mx

/-- `BVHNode::get_triangles`. -/
def BVHNode.get_triangles : BVHNode → List Triangle
  | .mk _ _ tr _ _ _ => tr

/-- The node's mutable `collision` flag. -/
def BVHNode.collision : BVHNode → Bool
  | .mk _ _ _ c _ _ => c

/-- `BVHNode::get_left`; `none` is the null pointer. -/
def BVHNode.get_left : BVHNode → Option BVHNode
  | .mk _ _ _ _ l _ => l

/-- `BVHNode::get_right`; `none` is the null pointer. -/
def BVHNode.get_right : BVHNode → Option BVHNode
  | .mk _ _ _ _ _ r => r

/-- Number of nodes of a tree (used as structural fuel below). -/
def nsize : BVHNode → Nat
  | .mk _ _ _ _ none none => 1
  | .mk _ _ _ _ none (some r) => nsize r + 1
  | .mk _ _ _ _ (some l) none => nsize l + 1
  | .mk _ _ _ _ (some l) (some r) => nsize l + nsize r + 1

/-- One `std::min` update of the running minimum corner (lines 29-31); the `w`
component of the accumulator is never touched by the loop. -/
def updMin (m v : Vec4) : Vec4 :=
  ⟨min v.x m.x, min v.y m.y, min v.z m.z, m.w⟩

/-- One `std::max` update of the running maximum corner (lines 33-35). -/
def updMax (m v : Vec4) : Vec4 :=
  ⟨max v.x m.x, max v.y m.y, max v.z m.z, m.w⟩

/-- The AABB setup loop of `construct` (lines 21-37): both accumulators start
at `triangles.at(0)->v1` and are folded over every vertex of every triangle. -/
def computeAABB (tris : List Triangle) (init : Vec4) : Vec4 × Vec4 :=
  tris.foldl
    (fun p tr => tr.getVertices.foldl (fun q v => (updMin q.1 v, updMax q.2 v)) p)
    (init, init)

/-- The three coordinate axes. -/
inductive Axis where
  | x
  | y
  | z
deriving DecidableEq, Repr

/-- The coordinate of a vector along an axis. -/
def axisCoord (a : Axis) (v : Vec4) : Rat :=
  match a with
  | .x => v.x
  | .y => v.y
  | .z => v.z

/-- Priority index of an axis in the tie-breaking order x, y, z. -/
def axisIdx : Axis → Nat
  | .x => 0
  | .y => 1
  | .z => 2

/-- `std::abs` on a rational. -/
def ratAbs (q : Rat) : Rat :=
  if q < 0 then -q else q

/-- Extent of the box `[mn, mx]` along an axis (`std::abs(max - min)`,
lines 50-52). -/
def axisLen (a : Axis) (mn mx : Vec4) : Rat :=
  ratAbs (rSub (axisCoord a mx) (axisCoord a mn))

/-- The split-axis selection of `construct` (lines 47-71): the first axis, in
the order x, y, z, whose extent is at least the extents of the two other axes;
`splitCoord` is the midpoint of that axis. -/
def chooseAxis (mn mx : Vec4) : Axis × Rat :=
  let xLength := ratAbs (rSub mx.x mn.x)
  let yLength := ratAbs (rSub mx.y mn.y)
  let zLength := ratAbs (rSub mx.z mn.z)
  if xLength ≥ yLength ∧ xLength ≥ zLength then (.x, rDiv (rAdd mn.x mx.x) 2)
  else if yLength ≥ xLength ∧ yLength ≥ zLength then (.y, rDiv (rAdd mn.y mx.y) 2)
  else (.z, rDiv (rAdd mn.z mx.z) 2)

/-- The per-triangle classification of the split loop (lines 78-126): `true`
means the triangle is pushed to `leftTriangles`. -/
def goesLeft (ax : Axis) (splitCoord : Rat) (tr : Triangle) : Bool :=
  let c1 := axisCoord ax tr.v1
  let c2 := axisCoord ax tr.v2
  let c3 := axisCoord ax tr.v3
  if c1 ≤ splitCoord ∧ c2 ≤ splitCoord ∧ c3 ≤ splitCoord then true
  else if splitCoord < c1 ∧ splitCoord < c2 ∧ splitCoord < c3 then false
  else
    let minDistance := min c1 (min c2 c3)
    let maxDistance := max c1 (max c2 c3)
    decide (rSub splitCoord minDistance ≥ rSub maxDistance splitCoord)

/-- `leftTriangles` after the split loop, in push order. -/
def splitLeft (ax : Axis) (sc : Rat) (tris : List Triangle) : List Triangle :=
  tris.filter (goesLeft ax sc)

/-- `rightTriangles` after the split loop, in push order. -/
def splitRight (ax : Axis) (sc : Rat) (tris : List Triangle) : List Triangle :=
  tris.filter (fun t => !(goesLeft ax sc t))

/-- The candidate subsets `construct` computes for a non-empty input list:
AABB, then split axis and coordinate, then the two filtered lists. -/
def buildSplit (t0 : Triangle) (ts : List Triangle) : List Triangle × List Triangle :=
  let mm := computeAABB (t0 :: ts) t0.v1
  let ac := chooseAxis mm.1 mm.2
  (splitLeft ac.1 ac.2 (t0 :: ts), splitRight ac.1 ac.2 (t0 :: ts))

/-- Modelled from the spec: `BVHNode::get_depth()` is declared in the missing
framework header and `construct` calls it on a freshly built childless node
(line 130).  The spec fixes its meaning at this only call site: a node becomes
internal only when the remaining depth budget is not exhausted, and a build
with `max_depth = 0` yields a single leaf (§4.1 step 5, §8), so the fresh node
reports depth 1 and the guard `node->get_depth() <= max_depth` is `1 ≤
max_depth`. -/
def freshNodeDepth : Int := 1

/-- The C++ conversion of the signed `int` argument to `size_t` in the mixed
comparison `leftTriangles.size() >= min_triangles_for_split` (lines 132, 141):
reduction modulo 2^64. -/
def toSizeT (n : Int) : Nat :=
  (n % (2 ^ 64 : Int)).toNat

/-- `Application::construct`, with structural fuel.  Each recursive call of the
source receives a strictly shorter triangle list, so fuel `triangles.length`
never runs out (`constructFuel_congr` below); the empty-list case dereferences
`triangles.at(0)` in the source (undefined behaviour) and returns a junk leaf
here. -/
def constructFuel : Nat → List Triangle → Int → Int → BVHNode
  | _, [], _, _ => .mk ⟨0, 0, 0, 0⟩ ⟨0, 0, 0, 0⟩ [] false none none
  | 0, t0 :: ts, _, _ =>
    let mm := computeAABB (t0 :: ts) t0.v1
    .mk mm.1 mm.2 (t0 :: ts) false none none
  | fuel + 1, t0 :: ts, max_depth, min_triangles_for_split =>
    let mm := computeAABB (t0 :: ts) t0.v1
    let ac := chooseAxis mm.1 mm.2
    let leftTriangles := splitLeft ac.1 ac.2 (t0 :: ts)
    let rightTriangles := splitRight ac.1 ac.2 (t0 :: ts)
    if leftTriangles ≠ [] ∧ rightTriangles ≠ [] ∧ freshNodeDepth ≤ max_depth then
      .mk mm.1 mm.2 (t0 :: ts) false
        (some (constructFuel fuel leftTriangles
          (if toSizeT min_triangles_for_split ≤ leftTriangles.length
           then max_depth - 1 else 0) min_triangles_for_split))
        (some (constructFuel fuel rightTriangles
          (if toSizeT min_triangles_for_split ≤ rightTriangles.length
           then max_depth - 1 else 0) min_triangles_for_split))
    else
      .mk mm.1 mm.2 (t0 :: ts) false none none

/-- `Application::construct` (lines 19-152). -/
def construct (triangles : List Triangle) (max_depth min_triangles_for_split : Int) :
    BVHNode :=
  constructFuel triangles.length triangles max_depth min_triangles_for_split

theorem length_filter_add_length_filter_not (l : List α) (p : α → Bool) :
    (l.filter p).length + (l.filter (fun a => !(p a))).length = l.length := by
  induction l with
  | nil => simp
  | cons a l ih =>
    by_cases h : p a <;> simp [List.filter_cons, h] <;> omega

theorem splitLeft_length_lt (ax : Axis) (sc : Rat) (tris : List Triangle)
    (h : splitRight ax sc tris ≠ []) :
    (splitLeft ax sc tris).length < tris.length := by
  have hadd := length_filter_add_length_filter_not tris (goesLeft ax sc)
  have hpos : 0 < (splitRight ax sc tris).length := by
    cases hr : splitRight ax sc tris with
    | nil => exact absurd hr h
    | cons a l => simp [hr]
  unfold splitLeft
  unfold splitRight at hpos hadd
  omega

theorem splitRight_length_lt (ax : Axis) (sc : Rat) (tris : List Triangle)
    (h : splitLeft ax sc tris ≠ []) :
    (splitRight ax sc tris).length < tris.length := by
  have hadd := length_filter_add_length_filter_not tris (goesLeft ax sc)
  have hpos : 0 < (splitLeft ax sc tris).length := by
    cases hr : splitLeft ax sc tris with
    | nil => exact absurd hr h
    | cons a l => simp [hr]
  unfold splitRight
  unfold splitLeft at hpos hadd
  omega

/-- The fuel of `constructFuel` is irrelevant as soon as it is at least the
length of the triangle list. -/
theorem constructFuel_congr :
    ∀ (f : Nat) (tris : List Triangle) (g : Nat) (d m : Int),
      tris.length ≤ f → tris.length ≤ g →
      constructFuel f tris d m = constructFuel g tris d m := by
  intro f
  induction f with
  | zero =>
    intro tris g d m hf _
    have : tris = [] := List.length_eq_zero.mp (Nat.le_zero.mp hf)
    subst this
    cases g <;> rfl
  | succ f ih =>
    intro tris g d m hf hg
    cases tris with
    | nil => cases g <;> rfl
    | cons t0 ts =>
      cases g with
      | zero => simp at hg
      | succ g =>
        simp only [constructFuel]
        set mm := computeAABB (t0 :: ts) t0.v1 with hmm
        set ac := chooseAxis mm.1 mm.2 with hac
        by_cases hcond : splitLeft ac.1 ac.2 (t0 :: ts) ≠ [] ∧
            splitRight ac.1 ac.2 (t0 :: ts) ≠ [] ∧ freshNodeDepth ≤ d
        · rw [if_pos hcond, if_pos hcond]
          obtain ⟨hl, hr, _⟩ := hcond
          have hllt := splitLeft_length_lt ac.1 ac.2 (t0 :: ts) hr
          have hrlt := splitRight_length_lt ac.1 ac.2 (t0 :: ts) hl
          have h1 : (splitLeft ac.1 ac.2 (t0 :: ts)).length ≤ f := by omega
          have h2 : (splitLeft ac.1 ac.2 (t0 :: ts)).length ≤ g := by omega
          have h3 : (splitRight ac.1 ac.2 (t0 :: ts)).length ≤ f := by omega
          have h4 : (splitRight ac.1 ac.2 (t0 :: ts)).length ≤ g := by omega
          rw [ih _ g _ _ h1 h2, ih _ g _ _ h3 h4]
        · rw [if_neg hcond, if_neg hcond]

/-- The defining equation of `construct` on a non-empty list, with the
recursive calls phrased through `construct` itself. -/
theorem construct_cons (t0 : Triangle) (ts : List Triangle) (d m : Int) :
    construct (t0 :: ts) d m =
      (let mm := computeAABB (t0 :: ts) t0.v1
       let ac := chooseAxis mm.1 mm.2
       let lts := splitLeft ac.1 ac.2 (t0 :: ts)
       let rts := splitRight ac.1 ac.2 (t0 :: ts)
       if lts ≠ [] ∧ rts ≠ [] ∧ freshNodeDepth ≤ d then
         .mk mm.1 mm.2 (t0 :: ts) false
           (some (construct lts (if toSizeT m ≤ lts.length then d - 1 else 0) m))
           (some (construct rts (if toSizeT m ≤ rts.length then d - 1 else 0) m))
       else .mk mm.1 mm.2 (t0 :: ts) false none none) := by
  show constructFuel (ts.length + 1) (t0 :: ts) d m = _
  simp only [constructFuel, construct]
  set mm := computeAABB (t0 :: ts) t0.v1 with hmm
  set ac := chooseAxis mm.1 mm.2 with hac
  by_cases hcond : splitLeft ac.1 ac.2 (t0 :: ts) ≠ [] ∧
      splitRight ac.1 ac.2 (t0 :: ts) ≠ [] ∧ freshNodeDepth ≤ d
  · rw [if_pos hcond, if_pos hcond]
    obtain ⟨hl, hr, _⟩ := hcond
    have hllt := splitLeft_length_lt ac.1 ac.2 (t0 :: ts) hr
    have hrlt := splitRight_length_lt ac.1 ac.2 (t0 :: ts) hl
    rw [constructFuel_congr ts.length _ _ _ _ (by simp at hllt ⊢; omega) le_rfl,
        constructFuel_congr ts.length _ _ _ _ (by simp at hrlt ⊢; omega) le_rfl]
  · rw [if_neg hcond, if_neg hcond]

/-- The separating-axis early-out test of `test_collision` (lines 175-178):
the call returns immediately iff the transformed boxes fail the per-axis
overlap test on some axis. -/
def separated (firstMin firstMax secondMin secondMax : Vec4) : Prop :=
  ¬(firstMax.x ≥ secondMin.x ∧ firstMin.x ≤ secondMax.x) ∨
  ¬(firstMax.y ≥ secondMin.y ∧ firstMin.y ≤ secondMax.y) ∨
  ¬(firstMax.z ≥ secondMin.z ∧ firstMin.z ≤ secondMax.z)

instance (a b c d : Vec4) : Decidable (separated a b c d) := by
  unfold separated
  infer_instance

/-- The leaf-leaf double loop of `test_collision` (lines 197-207): every pair
from the cross product of the two triangle lists is passed to the external
primitive, and on a positive result both pointer identities are added to the
triangle flag set. -/
def markTris (tri_inter : Triangle → Mat4 → Triangle → Mat4 → Bool)
    (m1 m2 : Mat4) (first_triangles second_triangles : List Triangle)
    (s : Finset Nat) : Finset Nat :=
  first_triangles.foldl
    (fun acc ta =>
      second_triangles.foldl
        (fun acc2 tb =>
          if tri_inter ta m1 tb m2 then insert tb.tid (insert ta.tid acc2)
          else acc2)
        acc)
    s

/-- `Application::test_collision`, with structural fuel.  Each recursive call
of the source descends into at least one child, so fuel `nsize a + nsize b`
never runs out (`testFuel_congr` below).  The state threading mirrors the
in-place mutation of the source: each recursive call receives the current
version of the node it works on and the current triangle flag set.  The
`none` fallbacks of the inner matches correspond to the source dereferencing a
null child reference (undefined behaviour, unreachable for constructed trees,
whose children are always both present or both absent). -/
def testFuel (ti : Triangle → Mat4 → Triangle → Mat4 → Bool) :
    Nat → BVHNode → Mat4 → BVHNode → Mat4 → Finset Nat →
    BVHNode × BVHNode × Finset Nat
  | 0, a, _, b, _, s => (a, b, s)
  | fuel + 1, a, m1, b, m2, s =>
    if separated (mulMV m1 a.get_min) (mulMV m1 a.get_max)
        (mulMV m2 b.get_min) (mulMV m2 b.get_max) then
      (a, b, s)
    else
      match a, b with
      | .mk amn amx atr _ al ar, .mk bmn bmx btr _ bl br =>
        match al, bl with
        | none, none =>
          (.mk amn amx atr true none ar, .mk bmn bmx btr true none br,
           markTris ti m1 m2 atr btr s)
        | none, some blN =>
          match br with
          | some brN =>
            let r1 := testFuel ti fuel (.mk amn amx atr true none ar) m1 blN m2 s
            let r2 := testFuel ti fuel r1.1 m1 brN m2 r1.2.2
            (r2.1, .mk bmn bmx btr true (some r1.2.1) (some r2.2.1), r2.2.2)
          | none =>
            (.mk amn amx atr true none ar, .mk bmn bmx btr true (some blN) none, s)
        | some alN, none =>
          match ar with
          | some arN =>
            let r1 := testFuel ti fuel alN m1 (.mk bmn bmx btr true none br) m2 s
            let r2 := testFuel ti fuel arN m1 r1.2.1 m2 r1.2.2
            (.mk amn amx atr true (some r1.1) (some r2.1), r2.2.1, r2.2.2)
          | none =>
            (.mk amn amx atr true (some alN) none, .mk bmn bmx btr true none br, s)
        | some alN, some blN =>
          match ar, br with
          | some arN, some brN =>
            let r1 := testFuel ti fuel alN m1 blN m2 s
            let r2 := testFuel ti fuel r1.1 m1 brN m2 r1.2.2
            let r3 := testFuel ti fuel arN m1 r1.2.1 m2 r2.2.2
            let r4 := testFuel ti fuel r3.1 m1 r2.2.1 m2 r3.2.2
            (.mk amn amx atr true (some r2.1) (some r4.1),
             .mk bmn bmx btr true (some r3.2.1) (some r4.2.1), r4.2.2)
          | _, _ =>
            (.mk amn amx atr true (some alN) ar, .mk bmn bmx btr true (some blN) br, s)

/-- `Application::test_collision` (lines 163-234).  Takes the two trees, the
two model matrices and the current triangle flag set; returns the updated
first tree, updated second tree and updated triangle flag set. -/
def test_collision (ti : Triangle → Mat4 → Triangle → Mat4 → Bool)
    (first_node : BVHNode) (first_matrix : Mat4)
    (second_node : BVHNode) (second_matrix : Mat4)
    (s : Finset Nat) : BVHNode × BVHNode × Finset Nat :=
  testFuel ti (nsize first_node + nsize second_node)
    first_node first_matrix second_node second_matrix s

theorem nsize_pos (a : BVHNode) : 1 ≤ nsize a := by
  cases a with
  | mk mn mx tr c l r => cases l <;> cases r <;> simp [nsize]

/-- `testFuel` preserves the node count of both trees. -/
theorem testFuel_nsize (ti : Triangle → Mat4 → Triangle → Mat4 → Bool) :
    ∀ (fuel : Nat) (a : BVHNode) (m1 : Mat4) (b : BVHNode) (m2 : Mat4)
      (s : Finset Nat),
      nsize (testFuel ti fuel a m1 b m2 s).1 = nsize a ∧
      nsize (testFuel ti fuel a m1 b m2 s).2.1 = nsize b := by
  intro fuel
  induction fuel with
  | zero => intro a m1 b m2 s; exact ⟨rfl, rfl⟩
  | succ fuel ih =>
    intro a m1 b m2 s
    by_cases hsep : separated (mulMV m1 a.get_min) (mulMV m1 a.get_max)
        (mulMV m2 b.get_min) (mulMV m2 b.get_max)
    · simp [testFuel, if_pos hsep]
    · cases a with
      | mk amn amx atr ac al ar =>
        cases b with
        | mk bmn bmx btr bc bl br =>
          simp only [testFuel, if_neg hsep]
          cases al with
          | none =>
            cases bl with
            | none => cases ar <;> cases br <;> simp [nsize]
            | some blN =>
              cases br with
              | some brN =>
                simp only []
                have h1 := ih (.mk amn amx atr true none ar) m1 blN m2 s
                have h2 := ih (testFuel ti fuel (.mk amn amx atr true none ar) m1 blN m2 s).1
                  m1 brN m2 (testFuel ti fuel (.mk amn amx atr true none ar) m1 blN m2 s).2.2
                cases ar <;> simp [nsize] at h1 h2 ⊢ <;> omega
              | none => cases ar <;> simp [nsize]
          | some alN =>
            cases bl with
            | none =>
              cases ar with
              | some arN =>
                simp only []
                have h1 := ih alN m1 (.mk bmn bmx btr true none br) m2 s
                have h2 := ih arN m1
                  (testFuel ti fuel alN m1 (.mk bmn bmx btr true none br) m2 s).2.1
                  m2 (testFuel ti fuel alN m1 (.mk bmn bmx btr true none br) m2 s).2.2
                cases br <;> simp [nsize] at h1 h2 ⊢ <;> omega
              | none => cases br <;> simp [nsize]
            | some blN =>
              cases ar with
              | none => cases br <;> simp [nsize]
              | some arN =>
                cases br with
                | none => simp [nsize]
                | some brN =>
                  simp only []
                  have h1 := ih alN m1 blN m2 s
                  set r1 := testFuel ti fuel alN m1 blN m2 s with hr1
                  have h2 := ih r1.1 m1 brN m2 r1.2.2
                  set r2 := testFuel ti fuel r1.1 m1 brN m2 r1.2.2 with hr2
                  have h3 := ih arN m1 r1.2.1 m2 r2.2.2
                  set r3 := testFuel ti fuel arN m1 r1.2.1 m2 r2.2.2 with hr3
                  have h4 := ih r3.1 m1 r2.2.1 m2 r3.2.2
                  simp [nsize] at h1 h2 h3 h4 ⊢
                  omega

/-- The fuel of `testFuel` is irrelevant as soon as it is at least the total
node count of the two trees. -/
theorem testFuel_congr (ti : Triangle → Mat4 → Triangle → Mat4 → Bool) :
    ∀ (f g : Nat) (a : BVHNode) (m1 : Mat4) (b : BVHNode) (m2 : Mat4)
      (s : Finset Nat),
      nsize a + nsize b ≤ f → nsize a + nsize b ≤ g →
      testFuel ti f a m1 b m2 s = testFuel ti g a m1 b m2 s := by
  intro f
  induction f with
  | zero =>
    intro g a m1 b m2 s hf _
    have ha := nsize_pos a
    have hb := nsize_pos b
    omega
  | succ f ih =>
    intro g a m1 b m2 s hf hg
    cases g with
    | zero =>
      have ha := nsize_pos a
      have hb := nsize_pos b
      omega
    | succ g =>
      by_cases hsep : separated (mulMV m1 a.get_min) (mulMV m1 a.get_max)
          (mulMV m2 b.get_min) (mulMV m2 b.get_max)
      · simp only [testFuel, if_pos hsep]
      · cases a with
        | mk amn amx atr ac al ar =>
          cases b with
          | mk bmn bmx btr bc bl br =>
            simp only [testFuel, if_neg hsep]
            cases al with
            | none =>
              cases bl with
              | none => rfl
              | some blN =>
                cases br with
                | some brN =>
                  simp only []
                  have hbl := nsize_pos blN
                  have hbr := nsize_pos brN
                  have hna : nsize (BVHNode.mk amn amx atr true none ar) =
                      nsize (BVHNode.mk amn amx atr ac none ar) := by
                    cases ar <;> simp [nsize]
                  simp only [nsize] at hf hg
                  have e1 : testFuel ti f (.mk amn amx atr true none ar) m1 blN m2 s =
                      testFuel ti g (.mk amn amx atr true none ar) m1 blN m2 s :=
                    ih g _ m1 _ m2 s (by omega) (by omega)
                  rw [e1]
                  obtain ⟨hn1a, hn1b⟩ :=
                    testFuel_nsize ti g (.mk amn amx atr true none ar) m1 blN m2 s
                  set r1 := testFuel ti g (.mk amn amx atr true none ar) m1 blN m2 s
                    with hr1
                  have e2 : testFuel ti f r1.1 m1 brN m2 r1.2.2 =
                      testFuel ti g r1.1 m1 brN m2 r1.2.2 :=
                    ih g _ m1 _ m2 _ (by omega) (by omega)
                  rw [e2]
                | none => rfl
            | some alN =>
              cases bl with
              | none =>
                cases ar with
                | some arN =>
                  simp only []
                  have hal := nsize_pos alN
                  have har := nsize_pos arN
                  have hnb : nsize (BVHNode.mk bmn bmx btr true none br) =
                      nsize (BVHNode.mk bmn bmx btr bc none br) := by
                    cases br <;> simp [nsize]
                  simp only [nsize] at hf hg
                  have e1 : testFuel ti f alN m1 (.mk bmn bmx btr true none br) m2 s =
                      testFuel ti g alN m1 (.mk bmn bmx btr true none br) m2 s :=
                    ih g _ m1 _ m2 s (by omega) (by omega)
                  rw [e1]
                  obtain ⟨hn1a, hn1b⟩ :=
                    testFuel_nsize ti g alN m1 (.mk bmn bmx btr true none br) m2 s
                  set r1 := testFuel ti g alN m1 (.mk bmn bmx btr true none br) m2 s
                    with hr1
                  have e2 : testFuel ti f arN m1 r1.2.1 m2 r1.2.2 =
                      testFuel ti g arN m1 r1.2.1 m2 r1.2.2 :=
                    ih g _ m1 _ m2 _ (by omega) (by omega)
                  rw [e2]
                | none => rfl
              | some blN =>
                cases ar with
                | none => rfl
                | some arN =>
                  cases br with
                  | none => rfl
                  | some brN =>
                    simp only []
                    have hal := nsize_pos alN
                    have har := nsize_pos arN
                    have hbl := nsize_pos blN
                    have hbr := nsize_pos brN
                    simp only [nsize] at hf hg
                    have e1 : testFuel ti f alN m1 blN m2 s =
                        testFuel ti g alN m1 blN m2 s :=
                      ih g _ m1 _ m2 s (by omega) (by omega)
                    rw [e1]
                    obtain ⟨hn1a, hn1b⟩ := testFuel_nsize ti g alN m1 blN m2 s
                    set r1 := testFuel ti g alN m1 blN m2 s with hr1
                    have e2 : testFuel ti f r1.1 m1 brN m2 r1.2.2 =
                        testFuel ti g r1.1 m1 brN m2 r1.2.2 :=
                      ih g _ m1 _ m2 _ (by omega) (by omega)
                    rw [e2]
                    obtain ⟨hn2a, hn2b⟩ := testFuel_nsize ti g r1.1 m1 brN m2 r1.2.2
                    set r2 := testFuel ti g r1.1 m1 brN m2 r1.2.2 with hr2
                    have e3 : testFuel ti f arN m1 r1.2.1 m2 r2.2.2 =
                        testFuel ti g arN m1 r1.2.1 m2 r2.2.2 :=
                      ih g _ m1 _ m2 _ (by omega) (by omega)
                    rw [e3]
                    obtain ⟨hn3a, hn3b⟩ := testFuel_nsize ti g arN m1 r1.2.1 m2 r2.2.2
                    set r3 := testFuel ti g arN m1 r1.2.1 m2 r2.2.2 with hr3
                    have e4 : testFuel ti f r3.1 m1 r2.2.1 m2 r3.2.2 =
                        testFuel ti g r3.1 m1 r2.2.1 m2 r3.2.2 :=
                      ih g _ m1 _ m2 _ (by omega) (by omega)
                    rw [e4]

theorem test_collision_nsize (ti : Triangle → Mat4 → Triangle → Mat4 → Bool)
    (a : BVHNode) (m1 : Mat4) (b : BVHNode) (m2 : Mat4) (s : Finset Nat) :
    nsize (test_collision ti a m1 b m2 s).1 = nsize a ∧
    nsize (test_collision ti a m1 b m2 s).2.1 = nsize b :=
  testFuel_nsize ti (nsize a + nsize b) a m1 b m2 s

theorem testFuel_eq_test (ti : Triangle → Mat4 → Triangle → Mat4 → Bool)
    (f : Nat) (a : BVHNode) (m1 : Mat4) (b : BVHNode) (m2 : Mat4)
    (s : Finset Nat) (h : nsize a + nsize b ≤ f) :
    testFuel ti f a m1 b m2 s = test_collision ti a m1 b m2 s :=
  testFuel_congr ti f (nsize a + nsize b) a m1 b m2 s h le_rfl

/-- Case lemma: the separating-axis early out (lines 175-182) leaves both
trees and the triangle flag set untouched. -/
theorem test_collision_sep (ti : Triangle → Mat4 → Triangle → Mat4 → Bool)
    (a : BVHNode) (m1 : Mat4) (b : BVHNode) (m2 : Mat4) (s : Finset Nat)
    (hsep : separated (mulMV m1 a.get_min) (mulMV m1 a.get_max)
      (mulMV m2 b.get_min) (mulMV m2 b.get_max)) :
    test_collision ti a m1 b m2 s = (a, b, s) := by
  have ha := nsize_pos a
  have hb := nsize_pos b
  have hN : nsize a + nsize b = (nsize a + nsize b - 1) + 1 := by omega
  rw [test_collision, hN]
  simp only [testFuel, if_pos hsep]

/-- Case lemma: both nodes are leaves (null left children) and the boxes
overlap (lines 190-208). -/
theorem test_collision_leafleaf (ti : Triangle → Mat4 → Triangle → Mat4 → Bool)
    (m1 m2 : Mat4) (s : Finset Nat) (amn amx : Vec4) (atr : List Triangle)
    (ac : Bool) (ar : Option BVHNode) (bmn bmx : Vec4) (btr : List Triangle)
    (bc : Bool) (br : Option BVHNode)
    (hsep : ¬ separated (mulMV m1 amn) (mulMV m1 amx) (mulMV m2 bmn) (mulMV m2 bmx)) :
    test_collision ti (.mk amn amx atr ac none ar) m1
        (.mk bmn bmx btr bc none br) m2 s =
      (.mk amn amx atr true none ar, .mk bmn bmx btr true none br,
       markTris ti m1 m2 atr btr s) := by
  have hN : nsize (BVHNode.mk amn amx atr ac none ar) +
      nsize (BVHNode.mk bmn bmx btr bc none br) =
      (nsize (BVHNode.mk amn amx atr ac none ar) +
       nsize (BVHNode.mk bmn bmx btr bc none br) - 1) + 1 := by
    have := nsize_pos (BVHNode.mk amn amx atr ac none ar)
    omega
  rw [test_collision, hN]
  simp only [testFuel, BVHNode.get_min, BVHNode.get_max]
  rw [if_neg hsep]

/-- Case lemma: overlap with the first node a leaf and the second node in the
malformed shape "left child but no right child"; the source dereferences a
null reference here (undefined behaviour), the embedding stops after the flag
writes.  Unreachable for constructed trees. -/
theorem test_collision_aleaf_mal (ti : Triangle → Mat4 → Triangle → Mat4 → Bool)
    (m1 m2 : Mat4) (s : Finset Nat) (amn amx : Vec4) (atr : List Triangle)
    (ac : Bool) (ar : Option BVHNode) (bmn bmx : Vec4) (btr : List Triangle)
    (bc : Bool) (blN : BVHNode)
    (hsep : ¬ separated (mulMV m1 amn) (mulMV m1 amx) (mulMV m2 bmn) (mulMV m2 bmx)) :
    test_collision ti (.mk amn amx atr ac none ar) m1
        (.mk bmn bmx btr bc (some blN) none) m2 s =
      (.mk amn amx atr true none ar, .mk bmn bmx btr true (some blN) none, s) := by
  have hN : nsize (BVHNode.mk amn amx atr ac none ar) +
      nsize (BVHNode.mk bmn bmx btr bc (some blN) none) =
      (nsize (BVHNode.mk amn amx atr ac none ar) +
       nsize (BVHNode.mk bmn bmx btr bc (some blN) none) - 1) + 1 := by
    have := nsize_pos (BVHNode.mk amn amx atr ac none ar)
    omega
  rw [test_collision, hN]
  simp only [testFuel, BVHNode.get_min, BVHNode.get_max]
  rw [if_neg hsep]

/-- Case lemma: overlap with the second node a leaf and the first node in the
malformed shape "left child but no right child" (undefined behaviour in the
source, unreachable for constructed trees). -/
theorem test_collision_bleaf_mal (ti : Triangle → Mat4 → Triangle → Mat4 → Bool)
    (m1 m2 : Mat4) (s : Finset Nat) (amn amx : Vec4) (atr : List Triangle)
    (ac : Bool) (alN : BVHNode) (bmn bmx : Vec4) (btr : List Triangle)
    (bc : Bool) (br : Option BVHNode)
    (hsep : ¬ separated (mulMV m1 amn) (mulMV m1 amx) (mulMV m2 bmn) (mulMV m2 bmx)) :
    test_collision ti (.mk amn amx atr ac (some alN) none) m1
        (.mk bmn bmx btr bc none br) m2 s =
      (.mk amn amx atr true (some alN) none, .mk bmn bmx btr true none br, s) := by
  have hN : nsize (BVHNode.mk amn amx atr ac (some alN) none) +
      nsize (BVHNode.mk bmn bmx btr bc none br) =
      (nsize (BVHNode.mk amn amx atr ac (some alN) none) +
       nsize (BVHNode.mk bmn bmx btr bc none br) - 1) + 1 := by
    have := nsize_pos (BVHNode.mk amn amx atr ac (some alN) none)
    omega
  rw [test_collision, hN]
  simp only [testFuel, BVHNode.get_min, BVHNode.get_max]
  rw [if_neg hsep]

/-- Case lemma: overlap with both nodes owning a left child but at least one
right child missing (undefined behaviour in the source, unreachable for
constructed trees). -/
theorem test_collision_both_mal (ti : Triangle → Mat4 → Triangle → Mat4 → Bool)
    (m1 m2 : Mat4) (s : Finset Nat) (amn amx : Vec4) (atr : List Triangle)
    (ac : Bool) (alN : BVHNode) (ar : Option BVHNode) (bmn bmx : Vec4)
    (btr : List Triangle) (bc : Bool) (blN : BVHNode) (br : Option BVHNode)
    (hmal : ar = none ∨ br = none)
    (hsep : ¬ separated (mulMV m1 amn) (mulMV m1 amx) (mulMV m2 bmn) (mulMV m2 bmx)) :
    test_collision ti (.mk amn amx atr ac (some alN) ar) m1
        (.mk bmn bmx btr bc (some blN) br) m2 s =
      (.mk amn amx atr true (some alN) ar, .mk bmn bmx btr true (some blN) br, s) := by
  have hN : nsize (BVHNode.mk amn amx atr ac (some alN) ar) +
      nsize (BVHNode.mk bmn bmx btr bc (some blN) br) =
      (nsize (BVHNode.mk amn amx atr ac (some alN) ar) +
       nsize (BVHNode.mk bmn bmx btr bc (some blN) br) - 1) + 1 := by
    have := nsize_pos (BVHNode.mk amn amx atr ac (some alN) ar)
    omega
  rw [test_collision, hN]
  simp only [testFuel, BVHNode.get_min, BVHNode.get_max]
  rw [if_neg hsep]
  rcases hmal with h | h
  · subst h
    cases br <;> rfl
  · subst h
    cases ar <;> rfl

/-- Case lemma: the first node is a leaf, the second is internal and the boxes
overlap (lines 213-217): recurse on `(a, b.left)` then `(a, b.right)`,
threading the mutated state (abbreviated by `r1`, `r2`). -/
theorem test_collision_aleaf (ti : Triangle → Mat4 → Triangle → Mat4 → Bool)
    (m1 m2 : Mat4) (s : Finset Nat) (amn amx : Vec4) (atr : List Triangle)
    (ac : Bool) (ar : Option BVHNode) (bmn bmx : Vec4) (btr : List Triangle)
    (bc : Bool) (blN brN : BVHNode) (r1 r2 : BVHNode × BVHNode × Finset Nat)
    (h1 : r1 = test_collision ti (.mk amn amx atr true none ar) m1 blN m2 s)
    (h2 : r2 = test_collision ti r1.1 m1 brN m2 r1.2.2)
    (hsep : ¬ separated (mulMV m1 amn) (mulMV m1 amx) (mulMV m2 bmn) (mulMV m2 bmx)) :
    test_collision ti (.mk amn amx atr ac none ar) m1
        (.mk bmn bmx btr bc (some blN) (some brN)) m2 s =
      (r2.1, .mk bmn bmx btr true (some r1.2.1) (some r2.2.1), r2.2.2) := by
  have hna : nsize (BVHNode.mk amn amx atr true none ar) =
      nsize (BVHNode.mk amn amx atr ac none ar) := by
    cases ar <;> simp [nsize]
  have hbl := nsize_pos blN
  have hbr := nsize_pos brN
  have hn1 : nsize r1.1 = nsize (BVHNode.mk amn amx atr true none ar) ∧
      nsize r1.2.1 = nsize blN := by
    rw [h1]
    exact test_collision_nsize ti _ m1 _ m2 s
  have main : ∀ M : Nat,
      nsize (BVHNode.mk amn amx atr ac none ar) + nsize blN + nsize brN ≤ M →
      testFuel ti (M + 1) (.mk amn amx atr ac none ar) m1
          (.mk bmn bmx btr bc (some blN) (some brN)) m2 s =
        (r2.1, .mk bmn bmx btr true (some r1.2.1) (some r2.2.1), r2.2.2) := by
    intro M hM
    simp only [testFuel, BVHNode.get_min, BVHNode.get_max]
    rw [if_neg hsep]
    rw [testFuel_eq_test ti M (.mk amn amx atr true none ar) m1 blN m2 s
      (by omega), ← h1]
    rw [testFuel_eq_test ti M r1.1 m1 brN m2 r1.2.2 (by omega), ← h2]
  have hN : nsize (BVHNode.mk amn amx atr ac none ar) +
      nsize (BVHNode.mk bmn bmx btr bc (some blN) (some brN)) =
      (nsize (BVHNode.mk amn amx atr ac none ar) + nsize blN + nsize brN) + 1 := by
    simp only [nsize]
    omega
  rw [test_collision, hN]
  exact main _ le_rfl

/-- Case lemma: the second node is a leaf, the first is internal and the boxes
overlap (lines 219-223): recurse on `(a.left, b)` then `(a.right, b)`,
threading the mutated state (abbreviated by `r1`, `r2`). -/
theorem test_collision_bleaf (ti : Triangle → Mat4 → Triangle → Mat4 → Bool)
    (m1 m2 : Mat4) (s : Finset Nat) (amn amx : Vec4) (atr : List Triangle)
    (ac : Bool) (alN arN : BVHNode) (bmn bmx : Vec4) (btr : List Triangle)
    (bc : Bool) (br : Option BVHNode) (r1 r2 : BVHNode × BVHNode × Finset Nat)
    (h1 : r1 = test_collision ti alN m1 (.mk bmn bmx btr true none br) m2 s)
    (h2 : r2 = test_collision ti arN m1 r1.2.1 m2 r1.2.2)
    (hsep : ¬ separated (mulMV m1 amn) (mulMV m1 amx) (mulMV m2 bmn) (mulMV m2 bmx)) :
    test_collision ti (.mk amn amx atr ac (some alN) (some arN)) m1
        (.mk bmn bmx btr bc none br) m2 s =
      (.mk amn amx atr true (some r1.1) (some r2.1), r2.2.1, r2.2.2) := by
  have hnb : nsize (BVHNode.mk bmn bmx btr true none br) =
      nsize (BVHNode.mk bmn bmx btr bc none br) := by
    cases br <;> simp [nsize]
  have hal := nsize_pos alN
  have har := nsize_pos arN
  have hn1 : nsize r1.1 = nsize alN ∧
      nsize r1.2.1 = nsize (BVHNode.mk bmn bmx btr true none br) := by
    rw [h1]
    exact test_collision_nsize ti _ m1 _ m2 s
  have main : ∀ M : Nat,
      nsize alN + nsize arN + nsize (BVHNode.mk bmn bmx btr bc none br) ≤ M →
      testFuel ti (M + 1) (.mk amn amx atr ac (some alN) (some arN)) m1
          (.mk bmn bmx btr bc none br) m2 s =
        (.mk amn amx atr true (some r1.1) (some r2.1), r2.2.1, r2.2.2) := by
    intro M hM
    simp only [testFuel, BVHNode.get_min, BVHNode.get_max]
    rw [if_neg hsep]
    rw [testFuel_eq_test ti M alN m1 (.mk bmn bmx btr true none br) m2 s
      (by omega), ← h1]
    rw [testFuel_eq_test ti M arN m1 r1.2.1 m2 r1.2.2 (by omega), ← h2]
  have hN : nsize (BVHNode.mk amn amx atr ac (some alN) (some arN)) +
      nsize (BVHNode.mk bmn bmx btr bc none br) =
      (nsize alN + nsize arN + nsize (BVHNode.mk bmn bmx btr bc none br)) + 1 := by
    simp only [nsize]
    omega
  rw [test_collision, hN]
  exact main _ le_rfl

/-- Case lemma: both nodes are internal and the boxes overlap (lines 225-231):
recurse on all four child pairs, threading the mutated state (abbreviated by
`r1` ... `r4`). -/
theorem test_collision_both (ti : Triangle → Mat4 → Triangle → Mat4 → Bool)
    (m1 m2 : Mat4) (s : Finset Nat) (amn amx : Vec4) (atr : List Triangle)
    (ac : Bool) (alN arN : BVHNode) (bmn bmx : Vec4) (btr : List Triangle)
    (bc : Bool) (blN brN : BVHNode) (r1 r2 r3 r4 : BVHNode × BVHNode × Finset Nat)
    (h1 : r1 = test_collision ti alN m1 blN m2 s)
    (h2 : r2 = test_collision ti r1.1 m1 brN m2 r1.2.2)
    (h3 : r3 = test_collision ti arN m1 r1.2.1 m2 r2.2.2)
    (h4 : r4 = test_collision ti r3.1 m1 r2.2.1 m2 r3.2.2)
    (hsep : ¬ separated (mulMV m1 amn) (mulMV m1 amx) (mulMV m2 bmn) (mulMV m2 bmx)) :
    test_collision ti (.mk amn amx atr ac (some alN) (some arN)) m1
        (.mk bmn bmx btr bc (some blN) (some brN)) m2 s =
      (.mk amn amx atr true (some r2.1) (some r4.1),
       .mk bmn bmx btr true (some r3.2.1) (some r4.2.1), r4.2.2) := by
  have hal := nsize_pos alN
  have har := nsize_pos arN
  have hbl := nsize_pos blN
  have hbr := nsize_pos brN
  have hn1 : nsize r1.1 = nsize alN ∧ nsize r1.2.1 = nsize blN := by
    rw [h1]
    exact test_collision_nsize ti _ m1 _ m2 s
  have hn2 : nsize r2.1 = nsize r1.1 ∧ nsize r2.2.1 = nsize brN := by
    rw [h2]
    exact test_collision_nsize ti _ m1 _ m2 _
  have hn3 : nsize r3.1 = nsize arN ∧ nsize r3.2.1 = nsize r1.2.1 := by
    rw [h3]
    exact test_collision_nsize ti _ m1 _ m2 _
  have main : ∀ M : Nat,
      nsize alN + nsize arN + nsize blN + nsize brN ≤ M →
      testFuel ti (M + 1) (.mk amn amx atr ac (some alN) (some arN)) m1
          (.mk bmn bmx btr bc (some blN) (some brN)) m2 s =
        (.mk amn amx atr true (some r2.1) (some r4.1),
         .mk bmn bmx btr true (some r3.2.1) (some r4.2.1), r4.2.2) := by
    intro M hM
    simp only [testFuel, BVHNode.get_min, BVHNode.get_max]
    rw [if_neg hsep]
    rw [testFuel_eq_test ti M alN m1 blN m2 s (by omega), ← h1]
    rw [testFuel_eq_test ti M r1.1 m1 brN m2 r1.2.2 (by omega), ← h2]
    rw [testFuel_eq_test ti M arN m1 r1.2.1 m2 r2.2.2 (by omega), ← h3]
    rw [testFuel_eq_test ti M r3.1 m1 r2.2.1 m2 r3.2.2 (by omega), ← h4]
  have hN : nsize (BVHNode.mk amn amx atr ac (some alN) (some arN)) +
      nsize (BVHNode.mk bmn bmx btr bc (some blN) (some brN)) =
      (nsize alN + nsize arN + nsize blN + nsize brN + 1) + 1 := by
    simp only [nsize]
    omega
  rw [test_collision, hN]
  exact main _ (by omega)

mutual

/-- The tree with every collision flag cleared (its "skeleton": topology,
boxes and triangle lists, which `test_collision` never modifies). -/
def strip : BVHNode → BVHNode
  | .mk mn mx tr _ l r => .mk mn mx tr false (stripO l) (stripO r)

/-- `strip` on an optional child. -/
def stripO : Option BVHNode → Option BVHNode
  | none => none
  | some t => some (strip t)

end

mutual

/-- Pointwise disjunction of the collision flags of two trees; the skeleton
(and any surplus structure) of the first argument is kept. -/
def orFlags : BVHNode → BVHNode → BVHNode
  | .mk mn mx tr c l r, .mk _ _ _ c2 l2 r2 =>
    .mk mn mx tr (c || c2) (orFlagsO l l2) (orFlagsO r r2)

/-- `orFlags` on optional children: the first argument's shape is kept. -/
def orFlagsO : Option BVHNode → Option BVHNode → Option BVHNode
  | none, _ => none
  | some t, none => some t
  | some t, some u => some (orFlags t u)

end

mutual

/-- Same skeleton, and every collision flag of the first tree is also set in
the second: "the run only turned flags on". -/
def flagsLE : BVHNode → BVHNode → Prop
  | .mk mn mx tr c l r, .mk mn2 mx2 tr2 c2 l2 r2 =>
    mn = mn2 ∧ mx = mx2 ∧ tr = tr2 ∧ (c = true → c2 = true) ∧
    flagsLEO l l2 ∧ flagsLEO r r2

/-- `flagsLE` on optional children. -/
def flagsLEO : Option BVHNode → Option BVHNode → Prop
  | none, none => True
  | none, some _ => False
  | some _, none => False
  | some t, some u => flagsLE t u

end

theorem strip_mk (mn mx : Vec4) (tr : List Triangle) (c : Bool)
    (l r : Option BVHNode) :
    strip (.mk mn mx tr c l r) = .mk mn mx tr false (stripO l) (stripO r) := by
  rw [strip]

theorem strip_get_min (a : BVHNode) : (strip a).get_min = a.get_min := by
  cases a with
  | mk mn mx tr c l r => rw [strip_mk]; rfl

theorem strip_get_max (a : BVHNode) : (strip a).get_max = a.get_max := by
  cases a with
  | mk mn mx tr c l r => rw [strip_mk]; rfl

theorem nsize_strip : ∀ (a : BVHNode), nsize (strip a) = nsize a := by
  have key : ∀ (n : Nat) (a : BVHNode), nsize a ≤ n → nsize (strip a) = nsize a := by
    intro n
    induction n with
    | zero => intro a ha; have := nsize_pos a; omega
    | succ n ih =>
      intro a ha
      cases a with
      | mk mn mx tr c l r =>
        rw [strip_mk]
        cases l with
        | none =>
          cases r with
          | none => rfl
          | some rN =>
            simp only [nsize] at ha
            simp only [stripO, nsize]
            rw [ih _ (by omega)]
        | some lN =>
          cases r with
          | none =>
            simp only [nsize] at ha
            simp only [stripO, nsize]
            rw [ih _ (by omega)]
          | some rN =>
            simp only [nsize] at ha
            simp only [stripO, nsize]
            rw [ih _ (by omega), ih _ (by omega)]
  exact fun a => key (nsize a) a le_rfl

theorem strip_strip : ∀ (a : BVHNode), strip (strip a) = strip a := by
  have key : ∀ (n : Nat) (a : BVHNode), nsize a ≤ n → strip (strip a) = strip a := by
    intro n
    induction n with
    | zero => intro a ha; have := nsize_pos a; omega
    | succ n ih =>
      intro a ha
      cases a with
      | mk mn mx tr c l r =>
        rw [strip_mk]
        cases l with
        | none =>
          cases r with
          | none => rw [strip_mk]; simp only [stripO]
          | some rN =>
            simp only [nsize] at ha
            simp only [stripO]
            rw [strip_mk]
            simp only [stripO]
            rw [ih _ (by omega)]
        | some lN =>
          cases r with
          | none =>
            simp only [nsize] at ha
            simp only [stripO]
            rw [strip_mk]
            simp only [stripO]
            rw [ih _ (by omega)]
          | some rN =>
            simp only [nsize] at ha
            simp only [stripO]
            rw [strip_mk]
            simp only [stripO]
            rw [ih _ (by omega), ih _ (by omega)]
  exact fun a => key (nsize a) a le_rfl

theorem orFlags_mk (mn mx : Vec4) (tr : List Triangle) (c : Bool)
    (l r : Option BVHNode) (mn2 mx2 : Vec4) (tr2 : List Triangle) (c2 : Bool)
    (l2 r2 : Option BVHNode) :
    orFlags (.mk mn mx tr c l r) (.mk mn2 mx2 tr2 c2 l2 r2) =
      .mk mn mx tr (c || c2) (orFlagsO l l2) (orFlagsO r r2) := by
  rw [orFlags]

/-- Adding the flags of a tree's own skeleton changes nothing. -/
theorem orFlags_strip_self : ∀ (a : BVHNode), orFlags a (strip a) = a := by
  have key : ∀ (n : Nat) (a : BVHNode), nsize a ≤ n → orFlags a (strip a) = a := by
    intro n
    induction n with
    | zero => intro a ha; have := nsize_pos a; omega
    | succ n ih =>
      intro a ha
      cases a with
      | mk mn mx tr c l r =>
        rw [strip_mk, orFlags_mk, Bool.or_false]
        cases l with
        | none =>
          cases r with
          | none => rfl
          | some rN =>
            simp only [nsize] at ha
            simp only [stripO, orFlagsO]
            rw [ih _ (by omega)]
        | some lN =>
          cases r with
          | none =>
            simp only [nsize] at ha
            simp only [stripO, orFlagsO]
            rw [ih _ (by omega)]
          | some rN =>
            simp only [nsize] at ha
            simp only [stripO, orFlagsO]
            rw [ih _ (by omega), ih _ (by omega)]
  exact fun a => key (nsize a) a le_rfl

/-- `orFlags` only touches flags: the skeleton is the first argument's. -/
theorem strip_orFlags : ∀ (a m : BVHNode), strip (orFlags a m) = strip a := by
  have key : ∀ (n : Nat) (a m : BVHNode), nsize a ≤ n →
      strip (orFlags a m) = strip a := by
    intro n
    induction n with
    | zero => intro a m ha; have := nsize_pos a; omega
    | succ n ih =>
      intro a m ha
      cases a with
      | mk mn mx tr c l r =>
        cases m with
        | mk mn2 mx2 tr2 c2 l2 r2 =>
          rw [orFlags_mk, strip_mk, strip_mk]
          cases l with
          | none =>
            cases r with
            | none => simp only [orFlagsO]
            | some rN =>
              simp only [nsize] at ha
              cases r2 with
              | none => simp only [orFlagsO]
              | some rN2 =>
                simp only [orFlagsO, stripO]
                rw [ih _ _ (by omega)]
          | some lN =>
            cases r with
            | none =>
              simp only [nsize] at ha
              cases l2 with
              | none => simp only [orFlagsO]
              | some lN2 =>
                simp only [orFlagsO, stripO]
                rw [ih _ _ (by omega)]
            | some rN =>
              simp only [nsize] at ha
              cases l2 with
              | none =>
                cases r2 with
                | none => simp only [orFlagsO]
                | some rN2 =>
                  simp only [orFlagsO, stripO]
                  rw [ih _ _ (by omega)]
              | some lN2 =>
                cases r2 with
                | none =>
                  simp only [orFlagsO, stripO]
                  rw [ih _ _ (by omega)]
                | some rN2 =>
                  simp only [orFlagsO, stripO]
                  rw [ih _ _ (by omega), ih _ _ (by omega)]
  exact fun a m => key (nsize a) a m le_rfl

/-- Absorption on the left of a stripped skeleton: if `y` has the skeleton of
`x`, then oring `y`'s flags onto the bare skeleton gives back `y`. -/
theorem orFlags_cancel : ∀ (x y : BVHNode), strip y = strip x →
    orFlags (strip x) y = y := by
  have key : ∀ (n : Nat) (x y : BVHNode), nsize x ≤ n → strip y = strip x →
      orFlags (strip x) y = y := by
    intro n
    induction n with
    | zero => intro x y hx _; have := nsize_pos x; omega
    | succ n ih =>
      intro x y hx hsy
      cases x with
      | mk mn mx tr c l r =>
        cases y with
        | mk mn2 mx2 tr2 c2 l2 r2 =>
          rw [strip_mk, strip_mk] at hsy
          rw [BVHNode.mk.injEq] at hsy
          obtain ⟨e1, e2, e3, _, e5, e6⟩ := hsy
          subst e1; subst e2; subst e3
          rw [strip_mk, orFlags_mk, Bool.false_or]
          cases l with
          | none =>
            cases l2 with
            | none =>
              cases r with
              | none =>
                cases r2 with
                | none => rfl
                | some rN2 => simp [stripO] at e6
              | some rN =>
                cases r2 with
                | none => simp [stripO] at e6
                | some rN2 =>
                  simp only [stripO] at e6
                  rw [Option.some.injEq] at e6
                  simp only [orFlagsO, stripO]
                  rw [ih _ _ (by simp only [nsize] at hx; omega) e6]
            | some lN2 => simp [stripO] at e5
          | some lN =>
            cases l2 with
            | none => simp [stripO] at e5
            | some lN2 =>
              simp only [stripO] at e5
              rw [Option.some.injEq] at e5
              cases r with
              | none =>
                cases r2 with
                | none =>
                  simp only [orFlagsO, stripO]
                  rw [ih _ _ (by simp only [nsize] at hx; omega) e5]
                | some rN2 => simp [stripO] at e6
              | some rN =>
                cases r2 with
                | none => simp [stripO] at e6
                | some rN2 =>
                  simp only [stripO] at e6
                  rw [Option.some.injEq] at e6
                  simp only [orFlagsO, stripO]
                  rw [ih _ _ (by simp only [nsize] at hx; omega) e5, ih _ _ (by simp only [nsize] at hx; omega) e6]
  exact fun x y => key (nsize x) x y le_rfl

theorem flagsLE_refl : ∀ (a : BVHNode), flagsLE a a := by
  have key : ∀ (n : Nat) (a : BVHNode), nsize a ≤ n → flagsLE a a := by
    intro n
    induction n with
    | zero => intro a ha; have := nsize_pos a; omega
    | succ n ih =>
      intro a ha
      cases a with
      | mk mn mx tr c l r =>
        rw [flagsLE]
        refine ⟨rfl, rfl, rfl, fun h => h, ?_, ?_⟩
        · cases l with
          | none => simp only [flagsLEO]
          | some lN =>
            simp only [flagsLEO]
            exact ih _ (by cases r <;> simp only [nsize] at ha <;> omega)
        · cases r with
          | none => simp only [flagsLEO]
          | some rN =>
            simp only [flagsLEO]
            exact ih _ (by cases l <;> simp only [nsize] at ha <;> omega)
  exact fun a => key (nsize a) a le_rfl

/-- Oring extra flags onto a tree only turns flags on. -/
theorem flagsLE_orFlags : ∀ (a m : BVHNode), flagsLE a (orFlags a m) := by
  have key : ∀ (n : Nat) (a m : BVHNode), nsize a ≤ n → flagsLE a (orFlags a m) := by
    intro n
    induction n with
    | zero => intro a m ha; have := nsize_pos a; omega
    | succ n ih =>
      intro a m ha
      cases a with
      | mk mn mx tr c l r =>
        cases m with
        | mk mn2 mx2 tr2 c2 l2 r2 =>
          rw [orFlags_mk, flagsLE]
          refine ⟨rfl, rfl, rfl, fun h => by rw [h, Bool.true_or], ?_, ?_⟩
          · cases l with
            | none => simp only [orFlagsO, flagsLEO]
            | some lN =>
              cases l2 with
              | none =>
                simp only [orFlagsO, flagsLEO]
                exact flagsLE_refl lN
              | some lN2 =>
                simp only [orFlagsO, flagsLEO]
                exact ih _ _ (by cases r <;> simp only [nsize] at ha <;> omega)
          · cases r with
            | none => simp only [orFlagsO, flagsLEO]
            | some rN =>
              cases r2 with
              | none =>
                simp only [orFlagsO, flagsLEO]
                exact flagsLE_refl rN
              | some rN2 =>
                simp only [orFlagsO, flagsLEO]
                exact ih _ _ (by cases l <;> simp only [nsize] at ha <;> omega)
  exact fun a m => key (nsize a) a m le_rfl

/-- Oring the same flag mask twice is the same as oring it once. -/
theorem orFlags_or_self : ∀ (a m : BVHNode),
    orFlags (orFlags a m) m = orFlags a m := by
  have key : ∀ (n : Nat) (a m : BVHNode), nsize a ≤ n →
      orFlags (orFlags a m) m = orFlags a m := by
    intro n
    induction n with
    | zero => intro a m ha; have := nsize_pos a; omega
    | succ n ih =>
      intro a m ha
      cases a with
      | mk mn mx tr c l r =>
        cases m with
        | mk mn2 mx2 tr2 c2 l2 r2 =>
          rw [orFlags_mk, orFlags_mk]
          rw [BVHNode.mk.injEq]
          refine ⟨rfl, rfl, rfl, by rw [Bool.or_assoc, Bool.or_self], ?_, ?_⟩
          · cases l with
            | none => simp only [orFlagsO]
            | some lN =>
              cases l2 with
              | none => simp only [orFlagsO]
              | some lN2 =>
                simp only [orFlagsO, Option.some.injEq]
                exact ih _ _ (by cases r <;> simp only [nsize] at ha <;> omega)
          · cases r with
            | none => simp only [orFlagsO]
            | some rN =>
              cases r2 with
              | none => simp only [orFlagsO]
              | some rN2 =>
                simp only [orFlagsO, Option.some.injEq]
                exact ih _ _ (by cases l <;> simp only [nsize] at ha <;> omega)
  exact fun a m => key (nsize a) a m le_rfl

/-- Associativity of `orFlags` over masks that share the tree's skeleton. -/
theorem orFlags_assoc : ∀ (a b c : BVHNode), strip b = strip a →
    strip c = strip a →
    orFlags (orFlags a b) c = orFlags a (orFlags b c) := by
  have key : ∀ (n : Nat) (a b c : BVHNode), nsize a ≤ n → strip b = strip a →
      strip c = strip a → orFlags (orFlags a b) c = orFlags a (orFlags b c) := by
    intro n
    induction n with
    | zero => intro a b c ha _ _; have := nsize_pos a; omega
    | succ n ih =>
      intro a b c ha hb hc
      cases a with
      | mk mn mx tr cc l r =>
        cases b with
        | mk mn2 mx2 tr2 c2 l2 r2 =>
          cases c with
          | mk mn3 mx3 tr3 c3 l3 r3 =>
            rw [strip_mk, strip_mk] at hb hc
            rw [BVHNode.mk.injEq] at hb hc
            obtain ⟨_, _, _, _, hbl, hbr⟩ := hb
            obtain ⟨_, _, _, _, hcl, hcr⟩ := hc
            rw [orFlags_mk, orFlags_mk, orFlags_mk, orFlags_mk]
            rw [BVHNode.mk.injEq]
            refine ⟨rfl, rfl, rfl, by rw [Bool.or_assoc], ?_, ?_⟩
            · cases l with
              | none =>
                cases l2 with
                | none =>
                  cases l3 with
                  | none => simp only [orFlagsO]
                  | some lN3 => simp [stripO] at hcl
                | some lN2 => simp [stripO] at hbl
              | some lN =>
                cases l2 with
                | none => simp [stripO] at hbl
                | some lN2 =>
                  cases l3 with
                  | none => simp [stripO] at hcl
                  | some lN3 =>
                    simp only [stripO, Option.some.injEq] at hbl hcl
                    simp only [orFlagsO, Option.some.injEq]
                    exact ih _ _ _
                      (by cases r <;> simp only [nsize] at ha <;> omega) hbl hcl
            · cases r with
              | none =>
                cases r2 with
                | none =>
                  cases r3 with
                  | none => simp only [orFlagsO]
                  | some rN3 => simp [stripO] at hcr
                | some rN2 => simp [stripO] at hbr
              | some rN =>
                cases r2 with
                | none => simp [stripO] at hbr
                | some rN2 =>
                  cases r3 with
                  | none => simp [stripO] at hcr
                  | some rN3 =>
                    simp only [stripO, Option.some.injEq] at hbr hcr
                    simp only [orFlagsO, Option.some.injEq]
                    exact ih _ _ _
                      (by cases l <;> simp only [nsize] at ha <;> omega) hbr hcr
  exact fun a b c => key (nsize a) a b c le_rfl

/-- The root flag assignment `node.collision = true` (lines 187-188). -/
def markRoot : BVHNode → BVHNode
  | .mk mn mx tr _ l r => .mk mn mx tr true l r

theorem strip_markRoot (a : BVHNode) : strip (markRoot a) = strip a := by
  cases a with
  | mk mn mx tr c l r => rw [markRoot, strip_mk, strip_mk]

theorem orFlagsO_stripO : ∀ (l : Option BVHNode), orFlagsO l (stripO l) = l := by
  intro l
  cases l with
  | none => rw [orFlagsO]
  | some lN =>
    rw [stripO, orFlagsO, orFlags_strip_self]

/-- Oring the marked bare skeleton onto the tree just marks its root. -/
theorem orFlags_markRoot_strip : ∀ (a : BVHNode),
    orFlags a (markRoot (strip a)) = markRoot a := by
  intro a
  cases a with
  | mk mn mx tr c l r =>
    rw [strip_mk, markRoot, markRoot, orFlags_mk, Bool.or_true]
    rw [orFlagsO_stripO, orFlagsO_stripO]

/-- Pulling a root-marked stripped skeleton out of a mask: used to relate the
canonical run (which descends on `markRoot (strip a)`) to the real run (which
descends on `markRoot a`). -/
theorem orFlags_markRoot_mask : ∀ (a m : BVHNode), strip m = strip a →
    orFlags a (orFlags (markRoot (strip a)) m) = orFlags (markRoot a) m := by
  intro a m hm
  cases a with
  | mk mn mx tr c l r =>
    cases m with
    | mk mn2 mx2 tr2 c2 l2 r2 =>
      rw [strip_mk, strip_mk] at hm
      rw [BVHNode.mk.injEq] at hm
      obtain ⟨_, _, _, _, hl2, hr2⟩ := hm
      rw [strip_mk, markRoot, markRoot, orFlags_mk, orFlags_mk, orFlags_mk]
      rw [BVHNode.mk.injEq]
      refine ⟨rfl, rfl, rfl, by rw [Bool.true_or, Bool.or_true], ?_, ?_⟩
      · cases l with
        | none => simp only [stripO, orFlagsO]
        | some lN =>
          cases l2 with
          | none =>
            simp only [stripO, orFlagsO]
            rw [orFlags_strip_self]
          | some lN2 =>
            simp only [stripO, Option.some.injEq] at hl2
            simp only [stripO, orFlagsO, Option.some.injEq]
            rw [orFlags_cancel _ _ hl2]
      · cases r with
        | none => simp only [stripO, orFlagsO]
        | some rN =>
          cases r2 with
          | none =>
            simp only [stripO, orFlagsO]
            rw [orFlags_strip_self]
          | some rN2 =>
            simp only [stripO, Option.some.injEq] at hr2
            simp only [stripO, orFlagsO, Option.some.injEq]
            rw [orFlags_cancel _ _ hr2]

theorem mem_markTris_inner (ti : Triangle → Mat4 → Triangle → Mat4 → Bool)
    (m1 m2 : Mat4) (ta : Triangle) :
    ∀ (bs : List Triangle) (acc : Finset Nat) (x : Nat),
      (x ∈ bs.foldl
        (fun acc2 tb =>
          if ti ta m1 tb m2 then insert tb.tid (insert ta.tid acc2) else acc2)
        acc) ↔
      (x ∈ acc ∨ ∃ tb ∈ bs, ti ta m1 tb m2 = true ∧ (x = ta.tid ∨ x = tb.tid)) := by
  intro bs
  induction bs with
  | nil => intro acc x; simp
  | cons tb bs ih =>
    intro acc x
    rw [List.foldl_cons]
    by_cases h : ti ta m1 tb m2
    · rw [if_pos h, ih]
      simp only [Finset.mem_insert, List.mem_cons]
      constructor
      · rintro ((hx | hx | hx) | ⟨tc, hc, hic, hx⟩)
        · exact Or.inr ⟨tb, Or.inl rfl, h, Or.inr hx⟩
        · exact Or.inr ⟨tb, Or.inl rfl, h, Or.inl hx⟩
        · exact Or.inl hx
        · exact Or.inr ⟨tc, Or.inr hc, hic, hx⟩
      · rintro (hx | ⟨tc, hcc, hic, hx⟩)
        · exact Or.inl (Or.inr (Or.inr hx))
        · rcases hcc with rfl | hc
          · rcases hx with hx | hx
            · exact Or.inl (Or.inr (Or.inl hx))
            · exact Or.inl (Or.inl hx)
          · exact Or.inr ⟨tc, hc, hic, hx⟩
    · rw [if_neg h, ih]
      simp only [List.mem_cons]
      constructor
      · rintro (hx | ⟨tc, hc, hic, hx⟩)
        · exact Or.inl hx
        · exact Or.inr ⟨tc, Or.inr hc, hic, hx⟩
      · rintro (hx | ⟨tc, hcc, hic, hx⟩)
        · exact Or.inl hx
        · rcases hcc with rfl | hc
          · exact absurd hic (by simpa using h)
          · exact Or.inr ⟨tc, hc, hic, hx⟩

/-- Membership in the triangle flag set produced by the leaf-leaf double loop:
an identity is flagged iff it was already flagged, or the primitive reports a
positive result for some pair and the identity is one of the pair's two
triangles. -/
theorem mem_markTris (ti : Triangle → Mat4 → Triangle → Mat4 → Bool)
    (m1 m2 : Mat4) :
    ∀ (as bs : List Triangle) (s : Finset Nat) (x : Nat),
      x ∈ markTris ti m1 m2 as bs s ↔
      (x ∈ s ∨ ∃ ta ∈ as, ∃ tb ∈ bs,
        ti ta m1 tb m2 = true ∧ (x = ta.tid ∨ x = tb.tid)) := by
  intro as
  induction as with
  | nil => intro bs s x; simp [markTris]
  | cons ta as ih =>
    intro bs s x
    have hcons : markTris ti m1 m2 (ta :: as) bs s =
        markTris ti m1 m2 as bs
          (bs.foldl
            (fun acc2 tb =>
              if ti ta m1 tb m2 then insert tb.tid (insert ta.tid acc2) else acc2)
            s) := by
      rw [markTris, markTris, List.foldl_cons]
    rw [hcons, ih, mem_markTris_inner]
    simp only [List.mem_cons]
    constructor
    · rintro ((hx | ⟨tb, hb, hib, hx⟩) | ⟨tc, hc, td, hd, hid, hx⟩)
      · exact Or.inl hx
      · exact Or.inr ⟨ta, Or.inl rfl, tb, hb, hib, hx⟩
      · exact Or.inr ⟨tc, Or.inr hc, td, hd, hid, hx⟩
    · rintro (hx | ⟨tc, hcc, td, hd, hid, hx⟩)
      · exact Or.inl (Or.inl hx)
      · rcases hcc with rfl | hc
        · exact Or.inl (Or.inr ⟨td, hd, hid, hx⟩)
        · exact Or.inr ⟨tc, hc, td, hd, hid, hx⟩

/-- The double loop only adds flags: its output is the input set united with
the marks computed from the empty set. -/
theorem markTris_union (ti : Triangle → Mat4 → Triangle → Mat4 → Bool)
    (m1 m2 : Mat4) (as bs : List Triangle) (s : Finset Nat) :
    markTris ti m1 m2 as bs s = s ∪ markTris ti m1 m2 as bs ∅ := by
  apply Finset.ext
  intro x
  rw [Finset.mem_union, mem_markTris, mem_markTris]
  simp

theorem stripO_stripO : ∀ (l : Option BVHNode), stripO (stripO l) = stripO l := by
  intro l
  cases l with
  | none => simp only [stripO]
  | some lN => simp only [stripO]; rw [strip_strip]

/-- `test_collision` never changes the skeleton of either tree. -/
theorem test_collision_strip (ti : Triangle → Mat4 → Triangle → Mat4 → Bool)
    (m1 m2 : Mat4) :
    ∀ (a b : BVHNode) (s : Finset Nat),
      strip (test_collision ti a m1 b m2 s).1 = strip a ∧
      strip (test_collision ti a m1 b m2 s).2.1 = strip b := by
  have key : ∀ (n : Nat) (a b : BVHNode) (s : Finset Nat), nsize a + nsize b ≤ n →
      strip (test_collision ti a m1 b m2 s).1 = strip a ∧
      strip (test_collision ti a m1 b m2 s).2.1 = strip b := by
    intro n
    induction n with
    | zero =>
      intro a b s hab
      have := nsize_pos a
      have := nsize_pos b
      omega
    | succ n ih =>
      intro a b s hab
      by_cases hsep : separated (mulMV m1 a.get_min) (mulMV m1 a.get_max)
          (mulMV m2 b.get_min) (mulMV m2 b.get_max)
      · rw [test_collision_sep ti a m1 b m2 s hsep]
        exact ⟨rfl, rfl⟩
      · cases a with
        | mk amn amx atr ac al ar =>
          cases b with
          | mk bmn bmx btr bc bl br =>
            simp only [BVHNode.get_min, BVHNode.get_max] at hsep
            cases al with
            | none =>
              cases bl with
              | none =>
                rw [test_collision_leafleaf ti m1 m2 s amn amx atr ac ar
                  bmn bmx btr bc br hsep]
                rw [strip_mk, strip_mk, strip_mk, strip_mk]
                exact ⟨rfl, rfl⟩
              | some blN =>
                cases br with
                | some brN =>
                  rw [test_collision_aleaf ti m1 m2 s amn amx atr ac ar
                    bmn bmx btr bc blN brN _ _ rfl rfl hsep]
                  have hbl := nsize_pos blN
                  have hbr := nsize_pos brN
                  simp only [nsize] at hab
                  have hna : nsize (BVHNode.mk amn amx atr true none ar) =
                      nsize (BVHNode.mk amn amx atr ac none ar) := by
                    cases ar <;> simp [nsize]
                  have h1 := ih (.mk amn amx atr true none ar) blN s (by omega)
                  obtain ⟨hn1a, hn1b⟩ := test_collision_nsize ti
                    (.mk amn amx atr true none ar) m1 blN m2 s
                  set r1 := test_collision ti (.mk amn amx atr true none ar)
                    m1 blN m2 s with hr1
                  have h2 := ih r1.1 brN r1.2.2 (by omega)
                  refine ⟨?_, ?_⟩
                  · rw [h2.1, h1.1, strip_mk, strip_mk]
                  · rw [strip_mk, strip_mk]
                    simp only [stripO]
                    rw [h1.2, h2.2]
                | none =>
                  rw [test_collision_aleaf_mal ti m1 m2 s amn amx atr ac ar
                    bmn bmx btr bc blN hsep]
                  rw [strip_mk, strip_mk, strip_mk, strip_mk]
                  exact ⟨rfl, rfl⟩
            | some alN =>
              cases bl with
              | none =>
                cases ar with
                | some arN =>
                  rw [test_collision_bleaf ti m1 m2 s amn amx atr ac alN arN
                    bmn bmx btr bc br _ _ rfl rfl hsep]
                  have hal := nsize_pos alN
                  have har := nsize_pos arN
                  simp only [nsize] at hab
                  have hnb : nsize (BVHNode.mk bmn bmx btr true none br) =
                      nsize (BVHNode.mk bmn bmx btr bc none br) := by
                    cases br <;> simp [nsize]
                  have h1 := ih alN (.mk bmn bmx btr true none br) s (by omega)
                  obtain ⟨hn1a, hn1b⟩ := test_collision_nsize ti alN m1
                    (.mk bmn bmx btr true none br) m2 s
                  set r1 := test_collision ti alN m1
                    (.mk bmn bmx btr true none br) m2 s with hr1
                  have h2 := ih arN r1.2.1 r1.2.2 (by omega)
                  refine ⟨?_, ?_⟩
                  · rw [strip_mk, strip_mk]
                    simp only [stripO]
                    rw [h1.1, h2.1]
                  · rw [h2.2, h1.2, strip_mk, strip_mk]
                | none =>
                  rw [test_collision_bleaf_mal ti m1 m2 s amn amx atr ac alN
                    bmn bmx btr bc br hsep]
                  rw [strip_mk, strip_mk, strip_mk, strip_mk]
                  exact ⟨rfl, rfl⟩
              | some blN =>
                cases ar with
                | none =>
                  rw [test_collision_both_mal ti m1 m2 s amn amx atr ac alN
                    none bmn bmx btr bc blN br (Or.inl rfl) hsep]
                  rw [strip_mk, strip_mk, strip_mk, strip_mk]
                  exact ⟨rfl, rfl⟩
                | some arN =>
                  cases br with
                  | none =>
                    rw [test_collision_both_mal ti m1 m2 s amn amx atr ac alN
                      (some arN) bmn bmx btr bc blN none (Or.inr rfl) hsep]
                    rw [strip_mk, strip_mk, strip_mk, strip_mk]
                    exact ⟨rfl, rfl⟩
                  | some brN =>
                    rw [test_collision_both ti m1 m2 s amn amx atr ac alN arN
                      bmn bmx btr bc blN brN _ _ _ _ rfl rfl rfl rfl hsep]
                    have hal := nsize_pos alN
                    have har := nsize_pos arN
                    have hbl := nsize_pos blN
                    have hbr := nsize_pos brN
                    simp only [nsize] at hab
                    have h1 := ih alN blN s (by omega)
                    obtain ⟨hn1a, hn1b⟩ := test_collision_nsize ti alN m1 blN m2 s
                    set r1 := test_collision ti alN m1 blN m2 s with hr1
                    have h2 := ih r1.1 brN r1.2.2 (by omega)
                    obtain ⟨hn2a, hn2b⟩ := test_collision_nsize ti r1.1 m1 brN
                      m2 r1.2.2
                    set r2 := test_collision ti r1.1 m1 brN m2 r1.2.2 with hr2
                    have h3 := ih arN r1.2.1 r2.2.2 (by omega)
                    obtain ⟨hn3a, hn3b⟩ := test_collision_nsize ti arN m1 r1.2.1
                      m2 r2.2.2
                    set r3 := test_collision ti arN m1 r1.2.1 m2 r2.2.2 with hr3
                    have h4 := ih r3.1 r2.2.1 r3.2.2 (by omega)
                    refine ⟨?_, ?_⟩
                    · rw [strip_mk, strip_mk]
                      simp only [stripO]
                      rw [h2.1, h1.1, h4.1, h3.1]
                    · rw [strip_mk, strip_mk]
                      simp only [stripO]
                      rw [h3.2, h1.2, h4.2, h2.2]
  intro a b s
  exact key (nsize a + nsize b) a b s le_rfl

/-- Decomposition of `test_collision`: the run on arbitrary flag state equals
the run on the flag-cleared skeletons (the "canonical marks"), ored onto the
inputs.  This captures that the traversal's control flow never reads a
collision flag and only ever turns flags on. -/
theorem test_collision_decomp (ti : Triangle → Mat4 → Triangle → Mat4 → Bool)
    (m1 m2 : Mat4) :
    ∀ (a b : BVHNode) (s : Finset Nat),
      test_collision ti a m1 b m2 s =
        (orFlags a (test_collision ti (strip a) m1 (strip b) m2 ∅).1,
         orFlags b (test_collision ti (strip a) m1 (strip b) m2 ∅).2.1,
         s ∪ (test_collision ti (strip a) m1 (strip b) m2 ∅).2.2) := by
  have key : ∀ (n : Nat) (a b : BVHNode) (s : Finset Nat), nsize a + nsize b ≤ n →
      test_collision ti a m1 b m2 s =
        (orFlags a (test_collision ti (strip a) m1 (strip b) m2 ∅).1,
         orFlags b (test_collision ti (strip a) m1 (strip b) m2 ∅).2.1,
         s ∪ (test_collision ti (strip a) m1 (strip b) m2 ∅).2.2) := by
    intro n
    induction n with
    | zero =>
      intro a b s hab
      have := nsize_pos a
      have := nsize_pos b
      omega
    | succ n ih =>
      intro a b s hab
      by_cases hsep : separated (mulMV m1 a.get_min) (mulMV m1 a.get_max)
          (mulMV m2 b.get_min) (mulMV m2 b.get_max)
      · have hsep2 : separated (mulMV m1 (strip a).get_min)
            (mulMV m1 (strip a).get_max) (mulMV m2 (strip b).get_min)
            (mulMV m2 (strip b).get_max) := by
          rw [strip_get_min, strip_get_max, strip_get_min, strip_get_max]
          exact hsep
        rw [test_collision_sep ti a m1 b m2 s hsep,
            test_collision_sep ti (strip a) m1 (strip b) m2 ∅ hsep2,
            orFlags_strip_self, orFlags_strip_self, Finset.union_empty]
      · cases a with
        | mk amn amx atr ac al ar =>
          cases b with
          | mk bmn bmx btr bc bl br =>
            simp only [BVHNode.get_min, BVHNode.get_max] at hsep
            cases al with
            | none =>
              cases bl with
              | none =>
                rw [test_collision_leafleaf ti m1 m2 s amn amx atr ac ar
                  bmn bmx btr bc br hsep]
                rw [strip_mk, strip_mk]
                simp only [stripO]
                rw [test_collision_leafleaf ti m1 m2 ∅ amn amx atr false
                  (stripO ar) bmn bmx btr false (stripO br) hsep]
                rw [markTris_union ti m1 m2 atr btr s]
                rw [orFlags_mk, orFlags_mk]
                simp only [Bool.or_true, orFlagsO, orFlagsO_stripO]
              | some blN =>
                cases br with
                | some brN =>
                  -- the first node is a leaf, the second internal
                  have hsa : strip (BVHNode.mk amn amx atr ac none ar) =
                      BVHNode.mk amn amx atr false none (stripO ar) := by
                    rw [strip_mk]; simp only [stripO]
                  have hsma : strip (BVHNode.mk amn amx atr true none ar) =
                      BVHNode.mk amn amx atr false none (stripO ar) := by
                    rw [strip_mk]; simp only [stripO]
                  have hsmsa : strip (BVHNode.mk amn amx atr true none (stripO ar)) =
                      BVHNode.mk amn amx atr false none (stripO ar) := by
                    rw [strip_mk]; simp only [stripO, stripO_stripO]
                  have hssa : strip (BVHNode.mk amn amx atr false none (stripO ar)) =
                      BVHNode.mk amn amx atr false none (stripO ar) := by
                    rw [strip_mk]; simp only [stripO, stripO_stripO]
                  have hsb : strip (BVHNode.mk bmn bmx btr bc (some blN) (some brN)) =
                      BVHNode.mk bmn bmx btr false (some (strip blN))
                        (some (strip brN)) := by
                    rw [strip_mk]; simp only [stripO]
                  have hbl := nsize_pos blN
                  have hbr := nsize_pos brN
                  simp only [nsize] at hab
                  have hna : nsize (BVHNode.mk amn amx atr true none ar) =
                      nsize (BVHNode.mk amn amx atr ac none ar) := by
                    cases ar <;> simp [nsize]
                  have hnsa : nsize (BVHNode.mk amn amx atr false none (stripO ar)) =
                      nsize (BVHNode.mk amn amx atr ac none ar) := by
                    rw [← hsa, nsize_strip]
                  have hnmsa : nsize (BVHNode.mk amn amx atr true none (stripO ar)) =
                      nsize (BVHNode.mk amn amx atr ac none ar) :=
                    ((nsize_strip _).symm.trans (by rw [hsmsa])).trans hnsa
                  have hnbl : nsize (strip blN) = nsize blN := nsize_strip blN
                  have hnbr : nsize (strip brN) = nsize brN := nsize_strip brN
                  -- real first call
                  have hr1 := ih (.mk amn amx atr true none ar) blN s (by omega)
                  rw [hsma] at hr1
                  have hr1a : (test_collision ti (.mk amn amx atr true none ar)
                      m1 blN m2 s).1 =
                      orFlags (.mk amn amx atr true none ar)
                        (test_collision ti
                          (.mk amn amx atr false none (stripO ar)) m1
                          (strip blN) m2 ∅).1 := by rw [hr1]
                  have hr1b : (test_collision ti (.mk amn amx atr true none ar)
                      m1 blN m2 s).2.1 =
                      orFlags blN (test_collision ti
                          (.mk amn amx atr false none (stripO ar)) m1
                          (strip blN) m2 ∅).2.1 := by rw [hr1]
                  have hr1t : (test_collision ti (.mk amn amx atr true none ar)
                      m1 blN m2 s).2.2 =
                      s ∪ (test_collision ti
                          (.mk amn amx atr false none (stripO ar)) m1
                          (strip blN) m2 ∅).2.2 := by rw [hr1]
                  have hstr1 := test_collision_strip ti m1 m2
                    (.mk amn amx atr true none ar) blN s
                  have hsr1a : strip (test_collision ti
                      (.mk amn amx atr true none ar) m1 blN m2 s).1 =
                      BVHNode.mk amn amx atr false none (stripO ar) := by
                    rw [hstr1.1, hsma]
                  obtain ⟨hnr1a, hnr1b⟩ := test_collision_nsize ti
                    (.mk amn amx atr true none ar) m1 blN m2 s
                  -- real second call
                  have hr2 := ih (test_collision ti (.mk amn amx atr true none ar)
                    m1 blN m2 s).1 brN (test_collision ti
                    (.mk amn amx atr true none ar) m1 blN m2 s).2.2 (by omega)
                  rw [hsr1a] at hr2
                  have hr2a : (test_collision ti (test_collision ti
                      (.mk amn amx atr true none ar) m1 blN m2 s).1 m1 brN m2
                      (test_collision ti (.mk amn amx atr true none ar) m1 blN
                        m2 s).2.2).1 =
                      orFlags (test_collision ti (.mk amn amx atr true none ar)
                          m1 blN m2 s).1
                        (test_collision ti
                          (.mk amn amx atr false none (stripO ar)) m1
                          (strip brN) m2 ∅).1 := by rw [hr2]
                  have hr2b : (test_collision ti (test_collision ti
                      (.mk amn amx atr true none ar) m1 blN m2 s).1 m1 brN m2
                      (test_collision ti (.mk amn amx atr true none ar) m1 blN
                        m2 s).2.2).2.1 =
                      orFlags brN (test_collision ti
                          (.mk amn amx atr false none (stripO ar)) m1
                          (strip brN) m2 ∅).2.1 := by rw [hr2]
                  have hr2t : (test_collision ti (test_collision ti
                      (.mk amn amx atr true none ar) m1 blN m2 s).1 m1 brN m2
                      (test_collision ti (.mk amn amx atr true none ar) m1 blN
                        m2 s).2.2).2.2 =
                      (test_collision ti (.mk amn amx atr true none ar) m1 blN
                        m2 s).2.2 ∪
                      (test_collision ti (.mk amn amx atr false none (stripO ar))
                        m1 (strip brN) m2 ∅).2.2 := by rw [hr2]
                  -- canonical first call
                  have hc1 := ih (.mk amn amx atr true none (stripO ar))
                    (strip blN) ∅ (by omega)
                  rw [hsmsa, strip_strip] at hc1
                  have hc1a : (test_collision ti
                      (.mk amn amx atr true none (stripO ar)) m1 (strip blN)
                      m2 ∅).1 =
                      orFlags (.mk amn amx atr true none (stripO ar))
                        (test_collision ti
                          (.mk amn amx atr false none (stripO ar)) m1
                          (strip blN) m2 ∅).1 := by rw [hc1]
                  have hc1b : (test_collision ti
                      (.mk amn amx atr true none (stripO ar)) m1 (strip blN)
                      m2 ∅).2.1 =
                      orFlags (strip blN) (test_collision ti
                          (.mk amn amx atr false none (stripO ar)) m1
                          (strip blN) m2 ∅).2.1 := by rw [hc1]
                  have hc1t : (test_collision ti
                      (.mk amn amx atr true none (stripO ar)) m1 (strip blN)
                      m2 ∅).2.2 =
                      (test_collision ti (.mk amn amx atr false none (stripO ar))
                        m1 (strip blN) m2 ∅).2.2 := by
                    rw [hc1]
                    exact Finset.empty_union _
                  have hstc1 := test_collision_strip ti m1 m2
                    (.mk amn amx atr true none (stripO ar)) (strip blN) ∅
                  have hsc1a : strip (test_collision ti
                      (.mk amn amx atr true none (stripO ar)) m1 (strip blN)
                      m2 ∅).1 =
                      BVHNode.mk amn amx atr false none (stripO ar) := by
                    rw [hstc1.1, hsmsa]
                  obtain ⟨hnc1a, hnc1b⟩ := test_collision_nsize ti
                    (.mk amn amx atr true none (stripO ar)) m1 (strip blN) m2 ∅
                  -- canonical second call
                  have hc2 := ih (test_collision ti
                    (.mk amn amx atr true none (stripO ar)) m1 (strip blN)
                    m2 ∅).1 (strip brN) (test_collision ti
                    (.mk amn amx atr true none (stripO ar)) m1 (strip blN)
                    m2 ∅).2.2 (by omega)
                  rw [hsc1a, strip_strip] at hc2
                  have hc2a : (test_collision ti (test_collision ti
                      (.mk amn amx atr true none (stripO ar)) m1 (strip blN)
                      m2 ∅).1 m1 (strip brN) m2 (test_collision ti
                      (.mk amn amx atr true none (stripO ar)) m1 (strip blN)
                      m2 ∅).2.2).1 =
                      orFlags (test_collision ti
                          (.mk amn amx atr true none (stripO ar)) m1
                          (strip blN) m2 ∅).1
                        (test_collision ti
                          (.mk amn amx atr false none (stripO ar)) m1
                          (strip brN) m2 ∅).1 := by rw [hc2]
                  have hc2b : (test_collision ti (test_collision ti
                      (.mk amn amx atr true none (stripO ar)) m1 (strip blN)
                      m2 ∅).1 m1 (strip brN) m2 (test_collision ti
                      (.mk amn amx atr true none (stripO ar)) m1 (strip blN)
                      m2 ∅).2.2).2.1 =
                      orFlags (strip brN) (test_collision ti
                          (.mk amn amx atr false none (stripO ar)) m1
                          (strip brN) m2 ∅).2.1 := by rw [hc2]
                  have hc2t : (test_collision ti (test_collision ti
                      (.mk amn amx atr true none (stripO ar)) m1 (strip blN)
                      m2 ∅).1 m1 (strip brN) m2 (test_collision ti
                      (.mk amn amx atr true none (stripO ar)) m1 (strip blN)
                      m2 ∅).2.2).2.2 =
                      (test_collision ti (.mk amn amx atr true none (stripO ar))
                        m1 (strip blN) m2 ∅).2.2 ∪
                      (test_collision ti (.mk amn amx atr false none (stripO ar))
                        m1 (strip brN) m2 ∅).2.2 := by rw [hc2]
                  -- strip facts of the canonical mark runs
                  have hstK1 := test_collision_strip ti m1 m2
                    (.mk amn amx atr false none (stripO ar)) (strip blN) ∅
                  have hsK1a : strip (test_collision ti
                      (.mk amn amx atr false none (stripO ar)) m1 (strip blN)
                      m2 ∅).1 = BVHNode.mk amn amx atr false none (stripO ar) := by
                    rw [hstK1.1, hssa]
                  have hsK1b : strip (test_collision ti
                      (.mk amn amx atr false none (stripO ar)) m1 (strip blN)
                      m2 ∅).2.1 = strip blN := by
                    rw [hstK1.2, strip_strip]
                  have hstK2 := test_collision_strip ti m1 m2
                    (.mk amn amx atr false none (stripO ar)) (strip brN) ∅
                  have hsK2a : strip (test_collision ti
                      (.mk amn amx atr false none (stripO ar)) m1 (strip brN)
                      m2 ∅).1 = BVHNode.mk amn amx atr false none (stripO ar) := by
                    rw [hstK2.1, hssa]
                  have hsK2b : strip (test_collision ti
                      (.mk amn amx atr false none (stripO ar)) m1 (strip brN)
                      m2 ∅).2.1 = strip brN := by
                    rw [hstK2.2, strip_strip]
                  have hcbl : orFlags (strip blN) (test_collision ti
                      (.mk amn amx atr false none (stripO ar)) m1 (strip blN)
                      m2 ∅).2.1 =
                      (test_collision ti (.mk amn amx atr false none (stripO ar))
                        m1 (strip blN) m2 ∅).2.1 :=
                    orFlags_cancel blN _ hsK1b
                  have hcbr : orFlags (strip brN) (test_collision ti
                      (.mk amn amx atr false none (stripO ar)) m1 (strip brN)
                      m2 ∅).2.1 =
                      (test_collision ti (.mk amn amx atr false none (stripO ar))
                        m1 (strip brN) m2 ∅).2.1 :=
                    orFlags_cancel brN _ hsK2b
                  -- rewrite the goal
                  rw [hsa, hsb]
                  rw [test_collision_aleaf ti m1 m2 s amn amx atr ac ar
                    bmn bmx btr bc blN brN _ _ rfl rfl hsep]
                  rw [test_collision_aleaf ti m1 m2 ∅ amn amx atr false
                    (stripO ar) bmn bmx btr false (strip blN) (strip brN) _ _
                    rfl rfl hsep]
                  simp only [Prod.mk.injEq]
                  refine ⟨?_, ?_, ?_⟩
                  · rw [hr2a, hr1a, hc2a, hc1a]
                    rw [← orFlags_assoc (BVHNode.mk amn amx atr ac none ar)
                      (orFlags (.mk amn amx atr true none (stripO ar))
                        (test_collision ti
                          (.mk amn amx atr false none (stripO ar)) m1
                          (strip blN) m2 ∅).1)
                      (test_collision ti
                        (.mk amn amx atr false none (stripO ar)) m1
                        (strip brN) m2 ∅).1
                      (by rw [strip_orFlags, hsmsa, hsa])
                      (by rw [hsK2a, hsa])]
                    have hmask := orFlags_markRoot_mask
                      (BVHNode.mk amn amx atr ac none ar)
                      (test_collision ti (.mk amn amx atr false none (stripO ar))
                        m1 (strip blN) m2 ∅).1 (by rw [hsK1a, hsa])
                    rw [hsa] at hmask
                    simp only [markRoot] at hmask
                    rw [hmask]
                  · rw [hr1b, hr2b, hc1b, hc2b, hcbl, hcbr, orFlags_mk]
                    simp only [Bool.or_true, orFlagsO]
                  · rw [hr2t, hr1t, hc2t, hc1t, Finset.union_assoc]
                | none =>
                  rw [test_collision_aleaf_mal ti m1 m2 s amn amx atr ac ar
                    bmn bmx btr bc blN hsep]
                  rw [strip_mk, strip_mk]
                  simp only [stripO]
                  rw [test_collision_aleaf_mal ti m1 m2 ∅ amn amx atr false
                    (stripO ar) bmn bmx btr false (strip blN) hsep]
                  rw [orFlags_mk, orFlags_mk, Finset.union_empty]
                  simp only [Bool.or_true, orFlagsO, orFlagsO_stripO,
                    orFlags_strip_self]
            | some alN =>
              cases bl with
              | none =>
                cases ar with
                | some arN =>
                  -- the second node is a leaf, the first internal
                  have hsb : strip (BVHNode.mk bmn bmx btr bc none br) =
                      BVHNode.mk bmn bmx btr false none (stripO br) := by
                    rw [strip_mk]; simp only [stripO]
                  have hsmb : strip (BVHNode.mk bmn bmx btr true none br) =
                      BVHNode.mk bmn bmx btr false none (stripO br) := by
                    rw [strip_mk]; simp only [stripO]
                  have hsmsb : strip (BVHNode.mk bmn bmx btr true none (stripO br)) =
                      BVHNode.mk bmn bmx btr false none (stripO br) := by
                    rw [strip_mk]; simp only [stripO, stripO_stripO]
                  have hssb : strip (BVHNode.mk bmn bmx btr false none (stripO br)) =
                      BVHNode.mk bmn bmx btr false none (stripO br) := by
                    rw [strip_mk]; simp only [stripO, stripO_stripO]
                  have hsa : strip (BVHNode.mk amn amx atr ac (some alN) (some arN)) =
                      BVHNode.mk amn amx atr false (some (strip alN))
                        (some (strip arN)) := by
                    rw [strip_mk]; simp only [stripO]
                  have hal := nsize_pos alN
                  have har := nsize_pos arN
                  simp only [nsize] at hab
                  have hnb : nsize (BVHNode.mk bmn bmx btr true none br) =
                      nsize (BVHNode.mk bmn bmx btr bc none br) := by
                    cases br <;> simp [nsize]
                  have hnsb : nsize (BVHNode.mk bmn bmx btr false none (stripO br)) =
                      nsize (BVHNode.mk bmn bmx btr bc none br) := by
                    rw [← hsb, nsize_strip]
                  have hnmsb : nsize (BVHNode.mk bmn bmx btr true none (stripO br)) =
                      nsize (BVHNode.mk bmn bmx btr bc none br) :=
                    ((nsize_strip _).symm.trans (by rw [hsmsb])).trans hnsb
                  have hnsal : nsize (strip alN) = nsize alN := nsize_strip alN
                  have hnsar : nsize (strip arN) = nsize arN := nsize_strip arN
                  -- real first call
                  have hr1 := ih alN (.mk bmn bmx btr true none br) s (by omega)
                  rw [hsmb] at hr1
                  have hr1a : (test_collision ti alN m1 (BVHNode.mk bmn bmx btr true none br) m2 s).1 = orFlags alN (test_collision ti (strip alN) m1 (BVHNode.mk bmn bmx btr false none (stripO br)) m2 ∅).1 := by rw [hr1]
                  have hr1b : (test_collision ti alN m1 (BVHNode.mk bmn bmx btr true none br) m2 s).2.1 =
                      orFlags (BVHNode.mk bmn bmx btr true none br) (test_collision ti (strip alN) m1 (BVHNode.mk bmn bmx btr false none (stripO br)) m2 ∅).2.1 := by
                    rw [hr1]
                  have hr1t : (test_collision ti alN m1 (BVHNode.mk bmn bmx btr true none br) m2 s).2.2 = s ∪ (test_collision ti (strip alN) m1 (BVHNode.mk bmn bmx btr false none (stripO br)) m2 ∅).2.2 := by rw [hr1]
                  have hstr1 := test_collision_strip ti m1 m2 alN
                    (.mk bmn bmx btr true none br) s
                  have hsr1b : strip (test_collision ti alN m1 (BVHNode.mk bmn bmx btr true none br) m2 s).2.1 =
                      BVHNode.mk bmn bmx btr false none (stripO br) := by
                    rw [hstr1.2, hsmb]
                  obtain ⟨hnr1a, hnr1b⟩ := test_collision_nsize ti alN m1
                    (.mk bmn bmx btr true none br) m2 s
                  -- real second call
                  have hr2 := ih arN (test_collision ti alN m1 (BVHNode.mk bmn bmx btr true none br) m2 s).2.1 (test_collision ti alN m1 (BVHNode.mk bmn bmx btr true none br) m2 s).2.2 (by omega)
                  rw [hsr1b] at hr2
                  have hr2a : (test_collision ti arN m1 (test_collision ti alN m1 (BVHNode.mk bmn bmx btr true none br) m2 s).2.1 m2 (test_collision ti alN m1 (BVHNode.mk bmn bmx btr true none br) m2 s).2.2).1 = orFlags arN (test_collision ti (strip arN) m1 (BVHNode.mk bmn bmx btr false none (stripO br)) m2 ∅).1 := by rw [hr2]
                  have hr2b : (test_collision ti arN m1 (test_collision ti alN m1 (BVHNode.mk bmn bmx btr true none br) m2 s).2.1 m2 (test_collision ti alN m1 (BVHNode.mk bmn bmx btr true none br) m2 s).2.2).2.1 = orFlags (test_collision ti alN m1 (BVHNode.mk bmn bmx btr true none br) m2 s).2.1 (test_collision ti (strip arN) m1 (BVHNode.mk bmn bmx btr false none (stripO br)) m2 ∅).2.1 := by
                    rw [hr2]
                  have hr2t : (test_collision ti arN m1 (test_collision ti alN m1 (BVHNode.mk bmn bmx btr true none br) m2 s).2.1 m2 (test_collision ti alN m1 (BVHNode.mk bmn bmx btr true none br) m2 s).2.2).2.2 = (test_collision ti alN m1 (BVHNode.mk bmn bmx btr true none br) m2 s).2.2 ∪ (test_collision ti (strip arN) m1 (BVHNode.mk bmn bmx btr false none (stripO br)) m2 ∅).2.2 := by rw [hr2]
                  -- canonical first call
                  have hc1 := ih (strip alN)
                    (.mk bmn bmx btr true none (stripO br)) ∅ (by omega)
                  rw [strip_strip, hsmsb] at hc1
                  have hc1a : (test_collision ti (strip alN) m1 (BVHNode.mk bmn bmx btr true none (stripO br)) m2 ∅).1 = orFlags (strip alN) (test_collision ti (strip alN) m1 (BVHNode.mk bmn bmx btr false none (stripO br)) m2 ∅).1 := by rw [hc1]
                  have hc1b : (test_collision ti (strip alN) m1 (BVHNode.mk bmn bmx btr true none (stripO br)) m2 ∅).2.1 =
                      orFlags (BVHNode.mk bmn bmx btr true none (stripO br))
                        (test_collision ti (strip alN) m1 (BVHNode.mk bmn bmx btr false none (stripO br)) m2 ∅).2.1 := by rw [hc1]
                  have hc1t : (test_collision ti (strip alN) m1 (BVHNode.mk bmn bmx btr true none (stripO br)) m2 ∅).2.2 = (test_collision ti (strip alN) m1 (BVHNode.mk bmn bmx btr false none (stripO br)) m2 ∅).2.2 := by
                    rw [hc1]
                    exact Finset.empty_union _
                  have hstc1 := test_collision_strip ti m1 m2 (strip alN)
                    (.mk bmn bmx btr true none (stripO br)) ∅
                  have hsc1b : strip (test_collision ti (strip alN) m1 (BVHNode.mk bmn bmx btr true none (stripO br)) m2 ∅).2.1 =
                      BVHNode.mk bmn bmx btr false none (stripO br) := by
                    rw [hstc1.2, hsmsb]
                  obtain ⟨hnc1a, hnc1b⟩ := test_collision_nsize ti (strip alN) m1
                    (.mk bmn bmx btr true none (stripO br)) m2 ∅
                  -- canonical second call
                  have hc2 := ih (strip arN) (test_collision ti (strip alN) m1 (BVHNode.mk bmn bmx btr true none (stripO br)) m2 ∅).2.1 (test_collision ti (strip alN) m1 (BVHNode.mk bmn bmx btr true none (stripO br)) m2 ∅).2.2 (by omega)
                  rw [strip_strip, hsc1b] at hc2
                  have hc2a : (test_collision ti (strip arN) m1 (test_collision ti (strip alN) m1 (BVHNode.mk bmn bmx btr true none (stripO br)) m2 ∅).2.1 m2 (test_collision ti (strip alN) m1 (BVHNode.mk bmn bmx btr true none (stripO br)) m2 ∅).2.2).1 = orFlags (strip arN) (test_collision ti (strip arN) m1 (BVHNode.mk bmn bmx btr false none (stripO br)) m2 ∅).1 := by rw [hc2]
                  have hc2b : (test_collision ti (strip arN) m1 (test_collision ti (strip alN) m1 (BVHNode.mk bmn bmx btr true none (stripO br)) m2 ∅).2.1 m2 (test_collision ti (strip alN) m1 (BVHNode.mk bmn bmx btr true none (stripO br)) m2 ∅).2.2).2.1 = orFlags (test_collision ti (strip alN) m1 (BVHNode.mk bmn bmx btr true none (stripO br)) m2 ∅).2.1 (test_collision ti (strip arN) m1 (BVHNode.mk bmn bmx btr false none (stripO br)) m2 ∅).2.1 := by rw [hc2]
                  have hc2t : (test_collision ti (strip arN) m1 (test_collision ti (strip alN) m1 (BVHNode.mk bmn bmx btr true none (stripO br)) m2 ∅).2.1 m2 (test_collision ti (strip alN) m1 (BVHNode.mk bmn bmx btr true none (stripO br)) m2 ∅).2.2).2.2 = (test_collision ti (strip alN) m1 (BVHNode.mk bmn bmx btr true none (stripO br)) m2 ∅).2.2 ∪ (test_collision ti (strip arN) m1 (BVHNode.mk bmn bmx btr false none (stripO br)) m2 ∅).2.2 := by rw [hc2]
                  -- strip facts of the canonical mark runs
                  have hstK1 := test_collision_strip ti m1 m2 (strip alN)
                    (.mk bmn bmx btr false none (stripO br)) ∅
                  have hsK1a : strip (test_collision ti (strip alN) m1 (BVHNode.mk bmn bmx btr false none (stripO br)) m2 ∅).1 = strip alN := by
                    rw [hstK1.1, strip_strip]
                  have hsK1b : strip (test_collision ti (strip alN) m1 (BVHNode.mk bmn bmx btr false none (stripO br)) m2 ∅).2.1 =
                      BVHNode.mk bmn bmx btr false none (stripO br) := by
                    rw [hstK1.2, hssb]
                  have hstK2 := test_collision_strip ti m1 m2 (strip arN)
                    (.mk bmn bmx btr false none (stripO br)) ∅
                  have hsK2a : strip (test_collision ti (strip arN) m1 (BVHNode.mk bmn bmx btr false none (stripO br)) m2 ∅).1 = strip arN := by
                    rw [hstK2.1, strip_strip]
                  have hcal : orFlags (strip alN) (test_collision ti (strip alN) m1 (BVHNode.mk bmn bmx btr false none (stripO br)) m2 ∅).1 = (test_collision ti (strip alN) m1 (BVHNode.mk bmn bmx btr false none (stripO br)) m2 ∅).1 :=
                    orFlags_cancel alN _ hsK1a
                  have hcar : orFlags (strip arN) (test_collision ti (strip arN) m1 (BVHNode.mk bmn bmx btr false none (stripO br)) m2 ∅).1 = (test_collision ti (strip arN) m1 (BVHNode.mk bmn bmx btr false none (stripO br)) m2 ∅).1 :=
                    orFlags_cancel arN _ hsK2a
                  -- rewrite the goal
                  rw [hsa, hsb]
                  rw [test_collision_bleaf ti m1 m2 s amn amx atr ac alN arN
                    bmn bmx btr bc br _ _ rfl rfl hsep]
                  rw [test_collision_bleaf ti m1 m2 ∅ amn amx atr false
                    (strip alN) (strip arN) bmn bmx btr false (stripO br) _ _
                    rfl rfl hsep]
                  simp only [Prod.mk.injEq]
                  refine ⟨?_, ?_, ?_⟩
                  · rw [hr1a, hr2a, hc1a, hcal, hc2a, hcar, orFlags_mk]
                    simp only [Bool.or_true, orFlagsO]
                  · rw [hr2b, hr1b, hc2b, hc1b]
                    rw [← orFlags_assoc (BVHNode.mk bmn bmx btr bc none br)
                      (orFlags (.mk bmn bmx btr true none (stripO br)) (test_collision ti (strip alN) m1 (BVHNode.mk bmn bmx btr false none (stripO br)) m2 ∅).2.1)
                      (test_collision ti (strip arN) m1 (BVHNode.mk bmn bmx btr false none (stripO br)) m2 ∅).2.1
                      (by rw [strip_orFlags, hsmsb, hsb])
                      (by rw [hstK2.2, hssb, hsb])]
                    have hmask := orFlags_markRoot_mask
                      (BVHNode.mk bmn bmx btr bc none br) (test_collision ti (strip alN) m1 (BVHNode.mk bmn bmx btr false none (stripO br)) m2 ∅).2.1
                      (by rw [hsK1b, hsb])
                    rw [hsb] at hmask
                    simp only [markRoot] at hmask
                    rw [hmask]
                  · rw [hr2t, hr1t, hc2t, hc1t, Finset.union_assoc]
                | none =>
                  rw [test_collision_bleaf_mal ti m1 m2 s amn amx atr ac alN
                    bmn bmx btr bc br hsep]
                  rw [strip_mk, strip_mk]
                  simp only [stripO]
                  rw [test_collision_bleaf_mal ti m1 m2 ∅ amn amx atr false
                    (strip alN) bmn bmx btr false (stripO br) hsep]
                  rw [orFlags_mk, orFlags_mk, Finset.union_empty]
                  simp only [Bool.or_true, orFlagsO, orFlagsO_stripO,
                    orFlags_strip_self]
              | some blN =>
                cases ar with
                | none =>
                  rw [test_collision_both_mal ti m1 m2 s amn amx atr ac alN
                    none bmn bmx btr bc blN br (Or.inl rfl) hsep]
                  rw [strip_mk, strip_mk]
                  simp only [stripO]
                  rw [test_collision_both_mal ti m1 m2 ∅ amn amx atr false
                    (strip alN) none bmn bmx btr false (strip blN) (stripO br)
                    (Or.inl rfl) hsep]
                  rw [orFlags_mk, orFlags_mk, Finset.union_empty]
                  simp only [Bool.or_true, orFlagsO, orFlagsO_stripO,
                    orFlags_strip_self]
                | some arN =>
                  cases br with
                  | none =>
                    rw [test_collision_both_mal ti m1 m2 s amn amx atr ac alN
                      (some arN) bmn bmx btr bc blN none (Or.inr rfl) hsep]
                    rw [strip_mk, strip_mk]
                    simp only [stripO]
                    rw [test_collision_both_mal ti m1 m2 ∅ amn amx atr false
                      (strip alN) (some (strip arN)) bmn bmx btr false
                      (strip blN) none (Or.inr rfl) hsep]
                    rw [orFlags_mk, orFlags_mk, Finset.union_empty]
                    simp only [Bool.or_true, orFlagsO, orFlagsO_stripO,
                      orFlags_strip_self]
                  | some brN =>
                    -- both nodes internal
                    have hsa : strip (BVHNode.mk amn amx atr ac (some alN)
                        (some arN)) =
                        BVHNode.mk amn amx atr false (some (strip alN))
                          (some (strip arN)) := by
                      rw [strip_mk]; simp only [stripO]
                    have hsb : strip (BVHNode.mk bmn bmx btr bc (some blN)
                        (some brN)) =
                        BVHNode.mk bmn bmx btr false (some (strip blN))
                          (some (strip brN)) := by
                      rw [strip_mk]; simp only [stripO]
                    have hnal := nsize_pos alN
                    have hnar := nsize_pos arN
                    have hnbl := nsize_pos blN
                    have hnbr := nsize_pos brN
                    simp only [nsize] at hab
                    have hnsal : nsize (strip alN) = nsize alN := nsize_strip alN
                    have hnsar : nsize (strip arN) = nsize arN := nsize_strip arN
                    have hnsbl : nsize (strip blN) = nsize blN := nsize_strip blN
                    have hnsbr : nsize (strip brN) = nsize brN := nsize_strip brN
                    -- real calls
                    have hr1 := ih alN blN s (by omega)
                    have hr1a : (test_collision ti alN m1 blN m2 s).1 = orFlags alN (test_collision ti (strip alN) m1 (strip blN) m2 ∅).1 := by rw [hr1]
                    have hr1b : (test_collision ti alN m1 blN m2 s).2.1 = orFlags blN (test_collision ti (strip alN) m1 (strip blN) m2 ∅).2.1 := by rw [hr1]
                    have hr1t : (test_collision ti alN m1 blN m2 s).2.2 = s ∪ (test_collision ti (strip alN) m1 (strip blN) m2 ∅).2.2 := by rw [hr1]
                    have hst1 := test_collision_strip ti m1 m2 alN blN s
                    obtain ⟨hnr1a, hnr1b⟩ := test_collision_nsize ti alN m1 blN m2 s
                    have hr2 := ih (test_collision ti alN m1 blN m2 s).1 brN (test_collision ti alN m1 blN m2 s).2.2 (by omega)
                    rw [hst1.1] at hr2
                    have hr2a : (test_collision ti (test_collision ti alN m1 blN m2 s).1 m1 brN m2 (test_collision ti alN m1 blN m2 s).2.2).1 = orFlags (test_collision ti alN m1 blN m2 s).1 (test_collision ti (strip alN) m1 (strip brN) m2 ∅).1 := by rw [hr2]
                    have hr2b : (test_collision ti (test_collision ti alN m1 blN m2 s).1 m1 brN m2 (test_collision ti alN m1 blN m2 s).2.2).2.1 = orFlags brN (test_collision ti (strip alN) m1 (strip brN) m2 ∅).2.1 := by rw [hr2]
                    have hr2t : (test_collision ti (test_collision ti alN m1 blN m2 s).1 m1 brN m2 (test_collision ti alN m1 blN m2 s).2.2).2.2 = (test_collision ti alN m1 blN m2 s).2.2 ∪ (test_collision ti (strip alN) m1 (strip brN) m2 ∅).2.2 := by rw [hr2]
                    have hst2 := test_collision_strip ti m1 m2 (test_collision ti alN m1 blN m2 s).1 brN (test_collision ti alN m1 blN m2 s).2.2
                    obtain ⟨hnr2a, hnr2b⟩ := test_collision_nsize ti (test_collision ti alN m1 blN m2 s).1 m1
                      brN m2 (test_collision ti alN m1 blN m2 s).2.2
                    have hr3 := ih arN (test_collision ti alN m1 blN m2 s).2.1 (test_collision ti (test_collision ti alN m1 blN m2 s).1 m1 brN m2 (test_collision ti alN m1 blN m2 s).2.2).2.2 (by omega)
                    rw [hst1.2] at hr3
                    have hr3a : (test_collision ti arN m1 (test_collision ti alN m1 blN m2 s).2.1 m2 (test_collision ti (test_collision ti alN m1 blN m2 s).1 m1 brN m2 (test_collision ti alN m1 blN m2 s).2.2).2.2).1 = orFlags arN (test_collision ti (strip arN) m1 (strip blN) m2 ∅).1 := by rw [hr3]
                    have hr3b : (test_collision ti arN m1 (test_collision ti alN m1 blN m2 s).2.1 m2 (test_collision ti (test_collision ti alN m1 blN m2 s).1 m1 brN m2 (test_collision ti alN m1 blN m2 s).2.2).2.2).2.1 = orFlags (test_collision ti alN m1 blN m2 s).2.1 (test_collision ti (strip arN) m1 (strip blN) m2 ∅).2.1 := by rw [hr3]
                    have hr3t : (test_collision ti arN m1 (test_collision ti alN m1 blN m2 s).2.1 m2 (test_collision ti (test_collision ti alN m1 blN m2 s).1 m1 brN m2 (test_collision ti alN m1 blN m2 s).2.2).2.2).2.2 = (test_collision ti (test_collision ti alN m1 blN m2 s).1 m1 brN m2 (test_collision ti alN m1 blN m2 s).2.2).2.2 ∪ (test_collision ti (strip arN) m1 (strip blN) m2 ∅).2.2 := by rw [hr3]
                    have hst3 := test_collision_strip ti m1 m2 arN (test_collision ti alN m1 blN m2 s).2.1 (test_collision ti (test_collision ti alN m1 blN m2 s).1 m1 brN m2 (test_collision ti alN m1 blN m2 s).2.2).2.2
                    obtain ⟨hnr3a, hnr3b⟩ := test_collision_nsize ti arN m1
                      (test_collision ti alN m1 blN m2 s).2.1 m2 (test_collision ti (test_collision ti alN m1 blN m2 s).1 m1 brN m2 (test_collision ti alN m1 blN m2 s).2.2).2.2
                    have hr4 := ih (test_collision ti arN m1 (test_collision ti alN m1 blN m2 s).2.1 m2 (test_collision ti (test_collision ti alN m1 blN m2 s).1 m1 brN m2 (test_collision ti alN m1 blN m2 s).2.2).2.2).1 (test_collision ti (test_collision ti alN m1 blN m2 s).1 m1 brN m2 (test_collision ti alN m1 blN m2 s).2.2).2.1 (test_collision ti arN m1 (test_collision ti alN m1 blN m2 s).2.1 m2 (test_collision ti (test_collision ti alN m1 blN m2 s).1 m1 brN m2 (test_collision ti alN m1 blN m2 s).2.2).2.2).2.2 (by omega)
                    rw [hst3.1, hst2.2] at hr4
                    have hr4a : (test_collision ti (test_collision ti arN m1 (test_collision ti alN m1 blN m2 s).2.1 m2 (test_collision ti (test_collision ti alN m1 blN m2 s).1 m1 brN m2 (test_collision ti alN m1 blN m2 s).2.2).2.2).1 m1 (test_collision ti (test_collision ti alN m1 blN m2 s).1 m1 brN m2 (test_collision ti alN m1 blN m2 s).2.2).2.1 m2 (test_collision ti arN m1 (test_collision ti alN m1 blN m2 s).2.1 m2 (test_collision ti (test_collision ti alN m1 blN m2 s).1 m1 brN m2 (test_collision ti alN m1 blN m2 s).2.2).2.2).2.2).1 = orFlags (test_collision ti arN m1 (test_collision ti alN m1 blN m2 s).2.1 m2 (test_collision ti (test_collision ti alN m1 blN m2 s).1 m1 brN m2 (test_collision ti alN m1 blN m2 s).2.2).2.2).1 (test_collision ti (strip arN) m1 (strip brN) m2 ∅).1 := by rw [hr4]
                    have hr4b : (test_collision ti (test_collision ti arN m1 (test_collision ti alN m1 blN m2 s).2.1 m2 (test_collision ti (test_collision ti alN m1 blN m2 s).1 m1 brN m2 (test_collision ti alN m1 blN m2 s).2.2).2.2).1 m1 (test_collision ti (test_collision ti alN m1 blN m2 s).1 m1 brN m2 (test_collision ti alN m1 blN m2 s).2.2).2.1 m2 (test_collision ti arN m1 (test_collision ti alN m1 blN m2 s).2.1 m2 (test_collision ti (test_collision ti alN m1 blN m2 s).1 m1 brN m2 (test_collision ti alN m1 blN m2 s).2.2).2.2).2.2).2.1 = orFlags (test_collision ti (test_collision ti alN m1 blN m2 s).1 m1 brN m2 (test_collision ti alN m1 blN m2 s).2.2).2.1 (test_collision ti (strip arN) m1 (strip brN) m2 ∅).2.1 := by rw [hr4]
                    have hr4t : (test_collision ti (test_collision ti arN m1 (test_collision ti alN m1 blN m2 s).2.1 m2 (test_collision ti (test_collision ti alN m1 blN m2 s).1 m1 brN m2 (test_collision ti alN m1 blN m2 s).2.2).2.2).1 m1 (test_collision ti (test_collision ti alN m1 blN m2 s).1 m1 brN m2 (test_collision ti alN m1 blN m2 s).2.2).2.1 m2 (test_collision ti arN m1 (test_collision ti alN m1 blN m2 s).2.1 m2 (test_collision ti (test_collision ti alN m1 blN m2 s).1 m1 brN m2 (test_collision ti alN m1 blN m2 s).2.2).2.2).2.2).2.2 = (test_collision ti arN m1 (test_collision ti alN m1 blN m2 s).2.1 m2 (test_collision ti (test_collision ti alN m1 blN m2 s).1 m1 brN m2 (test_collision ti alN m1 blN m2 s).2.2).2.2).2.2 ∪ (test_collision ti (strip arN) m1 (strip brN) m2 ∅).2.2 := by rw [hr4]
                    -- canonical mark runs and their strip facts
                    have hstK11 := test_collision_strip ti m1 m2 (strip alN)
                      (strip blN) ∅
                    have hsK11a : strip (test_collision ti (strip alN) m1 (strip blN) m2 ∅).1 = strip alN := by
                      rw [hstK11.1, strip_strip]
                    have hsK11b : strip (test_collision ti (strip alN) m1 (strip blN) m2 ∅).2.1 = strip blN := by
                      rw [hstK11.2, strip_strip]
                    obtain ⟨hnK11a, hnK11b⟩ := test_collision_nsize ti (strip alN)
                      m1 (strip blN) m2 ∅
                    have hstK12 := test_collision_strip ti m1 m2 (strip alN)
                      (strip brN) ∅
                    have hsK12a : strip (test_collision ti (strip alN) m1 (strip brN) m2 ∅).1 = strip alN := by
                      rw [hstK12.1, strip_strip]
                    have hsK12b : strip (test_collision ti (strip alN) m1 (strip brN) m2 ∅).2.1 = strip brN := by
                      rw [hstK12.2, strip_strip]
                    have hstK21 := test_collision_strip ti m1 m2 (strip arN)
                      (strip blN) ∅
                    have hsK21a : strip (test_collision ti (strip arN) m1 (strip blN) m2 ∅).1 = strip arN := by
                      rw [hstK21.1, strip_strip]
                    have hsK21b : strip (test_collision ti (strip arN) m1 (strip blN) m2 ∅).2.1 = strip blN := by
                      rw [hstK21.2, strip_strip]
                    have hstK22 := test_collision_strip ti m1 m2 (strip arN)
                      (strip brN) ∅
                    have hsK22a : strip (test_collision ti (strip arN) m1 (strip brN) m2 ∅).1 = strip arN := by
                      rw [hstK22.1, strip_strip]
                    have hsK22b : strip (test_collision ti (strip arN) m1 (strip brN) m2 ∅).2.1 = strip brN := by
                      rw [hstK22.2, strip_strip]
                    -- canonical second call
                    have hc2 := ih (test_collision ti (strip alN) m1 (strip blN) m2 ∅).1 (strip brN) (test_collision ti (strip alN) m1 (strip blN) m2 ∅).2.2 (by omega)
                    rw [hsK11a, strip_strip] at hc2
                    have hc2a : (test_collision ti (test_collision ti (strip alN) m1 (strip blN) m2 ∅).1 m1 (strip brN) m2 (test_collision ti (strip alN) m1 (strip blN) m2 ∅).2.2).1 = orFlags (test_collision ti (strip alN) m1 (strip blN) m2 ∅).1 (test_collision ti (strip alN) m1 (strip brN) m2 ∅).1 := by rw [hc2]
                    have hc2b : (test_collision ti (test_collision ti (strip alN) m1 (strip blN) m2 ∅).1 m1 (strip brN) m2 (test_collision ti (strip alN) m1 (strip blN) m2 ∅).2.2).2.1 = orFlags (strip brN) (test_collision ti (strip alN) m1 (strip brN) m2 ∅).2.1 := by
                      rw [hc2]
                    have hc2t : (test_collision ti (test_collision ti (strip alN) m1 (strip blN) m2 ∅).1 m1 (strip brN) m2 (test_collision ti (strip alN) m1 (strip blN) m2 ∅).2.2).2.2 = (test_collision ti (strip alN) m1 (strip blN) m2 ∅).2.2 ∪ (test_collision ti (strip alN) m1 (strip brN) m2 ∅).2.2 := by rw [hc2]
                    have hstc2 := test_collision_strip ti m1 m2 (test_collision ti (strip alN) m1 (strip blN) m2 ∅).1
                      (strip brN) (test_collision ti (strip alN) m1 (strip blN) m2 ∅).2.2
                    have hsc2b : strip (test_collision ti (test_collision ti (strip alN) m1 (strip blN) m2 ∅).1 m1 (strip brN) m2 (test_collision ti (strip alN) m1 (strip blN) m2 ∅).2.2).2.1 = strip brN := by
                      rw [hstc2.2, strip_strip]
                    obtain ⟨hnc2a, hnc2b⟩ := test_collision_nsize ti (test_collision ti (strip alN) m1 (strip blN) m2 ∅).1 m1
                      (strip brN) m2 (test_collision ti (strip alN) m1 (strip blN) m2 ∅).2.2
                    -- canonical third call
                    have hc3 := ih (strip arN) (test_collision ti (strip alN) m1 (strip blN) m2 ∅).2.1 (test_collision ti (test_collision ti (strip alN) m1 (strip blN) m2 ∅).1 m1 (strip brN) m2 (test_collision ti (strip alN) m1 (strip blN) m2 ∅).2.2).2.2 (by omega)
                    rw [strip_strip, hsK11b] at hc3
                    have hc3a : (test_collision ti (strip arN) m1 (test_collision ti (strip alN) m1 (strip blN) m2 ∅).2.1 m2 (test_collision ti (test_collision ti (strip alN) m1 (strip blN) m2 ∅).1 m1 (strip brN) m2 (test_collision ti (strip alN) m1 (strip blN) m2 ∅).2.2).2.2).1 = orFlags (strip arN) (test_collision ti (strip arN) m1 (strip blN) m2 ∅).1 := by rw [hc3]
                    have hc3b : (test_collision ti (strip arN) m1 (test_collision ti (strip alN) m1 (strip blN) m2 ∅).2.1 m2 (test_collision ti (test_collision ti (strip alN) m1 (strip blN) m2 ∅).1 m1 (strip brN) m2 (test_collision ti (strip alN) m1 (strip blN) m2 ∅).2.2).2.2).2.1 = orFlags (test_collision ti (strip alN) m1 (strip blN) m2 ∅).2.1 (test_collision ti (strip arN) m1 (strip blN) m2 ∅).2.1 := by
                      rw [hc3]
                    have hc3t : (test_collision ti (strip arN) m1 (test_collision ti (strip alN) m1 (strip blN) m2 ∅).2.1 m2 (test_collision ti (test_collision ti (strip alN) m1 (strip blN) m2 ∅).1 m1 (strip brN) m2 (test_collision ti (strip alN) m1 (strip blN) m2 ∅).2.2).2.2).2.2 = (test_collision ti (test_collision ti (strip alN) m1 (strip blN) m2 ∅).1 m1 (strip brN) m2 (test_collision ti (strip alN) m1 (strip blN) m2 ∅).2.2).2.2 ∪ (test_collision ti (strip arN) m1 (strip blN) m2 ∅).2.2 := by rw [hc3]
                    have hstc3 := test_collision_strip ti m1 m2 (strip arN)
                      (test_collision ti (strip alN) m1 (strip blN) m2 ∅).2.1 (test_collision ti (test_collision ti (strip alN) m1 (strip blN) m2 ∅).1 m1 (strip brN) m2 (test_collision ti (strip alN) m1 (strip blN) m2 ∅).2.2).2.2
                    have hsc3a : strip (test_collision ti (strip arN) m1 (test_collision ti (strip alN) m1 (strip blN) m2 ∅).2.1 m2 (test_collision ti (test_collision ti (strip alN) m1 (strip blN) m2 ∅).1 m1 (strip brN) m2 (test_collision ti (strip alN) m1 (strip blN) m2 ∅).2.2).2.2).1 = strip arN := by
                      rw [hstc3.1, strip_strip]
                    obtain ⟨hnc3a, hnc3b⟩ := test_collision_nsize ti (strip arN)
                      m1 (test_collision ti (strip alN) m1 (strip blN) m2 ∅).2.1 m2 (test_collision ti (test_collision ti (strip alN) m1 (strip blN) m2 ∅).1 m1 (strip brN) m2 (test_collision ti (strip alN) m1 (strip blN) m2 ∅).2.2).2.2
                    -- canonical fourth call
                    have hc4 := ih (test_collision ti (strip arN) m1 (test_collision ti (strip alN) m1 (strip blN) m2 ∅).2.1 m2 (test_collision ti (test_collision ti (strip alN) m1 (strip blN) m2 ∅).1 m1 (strip brN) m2 (test_collision ti (strip alN) m1 (strip blN) m2 ∅).2.2).2.2).1 (test_collision ti (test_collision ti (strip alN) m1 (strip blN) m2 ∅).1 m1 (strip brN) m2 (test_collision ti (strip alN) m1 (strip blN) m2 ∅).2.2).2.1 (test_collision ti (strip arN) m1 (test_collision ti (strip alN) m1 (strip blN) m2 ∅).2.1 m2 (test_collision ti (test_collision ti (strip alN) m1 (strip blN) m2 ∅).1 m1 (strip brN) m2 (test_collision ti (strip alN) m1 (strip blN) m2 ∅).2.2).2.2).2.2 (by omega)
                    rw [hsc3a, hsc2b] at hc4
                    have hc4a : (test_collision ti (test_collision ti (strip arN) m1 (test_collision ti (strip alN) m1 (strip blN) m2 ∅).2.1 m2 (test_collision ti (test_collision ti (strip alN) m1 (strip blN) m2 ∅).1 m1 (strip brN) m2 (test_collision ti (strip alN) m1 (strip blN) m2 ∅).2.2).2.2).1 m1 (test_collision ti (test_collision ti (strip alN) m1 (strip blN) m2 ∅).1 m1 (strip brN) m2 (test_collision ti (strip alN) m1 (strip blN) m2 ∅).2.2).2.1 m2 (test_collision ti (strip arN) m1 (test_collision ti (strip alN) m1 (strip blN) m2 ∅).2.1 m2 (test_collision ti (test_collision ti (strip alN) m1 (strip blN) m2 ∅).1 m1 (strip brN) m2 (test_collision ti (strip alN) m1 (strip blN) m2 ∅).2.2).2.2).2.2).1 = orFlags (test_collision ti (strip arN) m1 (test_collision ti (strip alN) m1 (strip blN) m2 ∅).2.1 m2 (test_collision ti (test_collision ti (strip alN) m1 (strip blN) m2 ∅).1 m1 (strip brN) m2 (test_collision ti (strip alN) m1 (strip blN) m2 ∅).2.2).2.2).1 (test_collision ti (strip arN) m1 (strip brN) m2 ∅).1 := by rw [hc4]
                    have hc4b : (test_collision ti (test_collision ti (strip arN) m1 (test_collision ti (strip alN) m1 (strip blN) m2 ∅).2.1 m2 (test_collision ti (test_collision ti (strip alN) m1 (strip blN) m2 ∅).1 m1 (strip brN) m2 (test_collision ti (strip alN) m1 (strip blN) m2 ∅).2.2).2.2).1 m1 (test_collision ti (test_collision ti (strip alN) m1 (strip blN) m2 ∅).1 m1 (strip brN) m2 (test_collision ti (strip alN) m1 (strip blN) m2 ∅).2.2).2.1 m2 (test_collision ti (strip arN) m1 (test_collision ti (strip alN) m1 (strip blN) m2 ∅).2.1 m2 (test_collision ti (test_collision ti (strip alN) m1 (strip blN) m2 ∅).1 m1 (strip brN) m2 (test_collision ti (strip alN) m1 (strip blN) m2 ∅).2.2).2.2).2.2).2.1 = orFlags (test_collision ti (test_collision ti (strip alN) m1 (strip blN) m2 ∅).1 m1 (strip brN) m2 (test_collision ti (strip alN) m1 (strip blN) m2 ∅).2.2).2.1 (test_collision ti (strip arN) m1 (strip brN) m2 ∅).2.1 := by
                      rw [hc4]
                    have hc4t : (test_collision ti (test_collision ti (strip arN) m1 (test_collision ti (strip alN) m1 (strip blN) m2 ∅).2.1 m2 (test_collision ti (test_collision ti (strip alN) m1 (strip blN) m2 ∅).1 m1 (strip brN) m2 (test_collision ti (strip alN) m1 (strip blN) m2 ∅).2.2).2.2).1 m1 (test_collision ti (test_collision ti (strip alN) m1 (strip blN) m2 ∅).1 m1 (strip brN) m2 (test_collision ti (strip alN) m1 (strip blN) m2 ∅).2.2).2.1 m2 (test_collision ti (strip arN) m1 (test_collision ti (strip alN) m1 (strip blN) m2 ∅).2.1 m2 (test_collision ti (test_collision ti (strip alN) m1 (strip blN) m2 ∅).1 m1 (strip brN) m2 (test_collision ti (strip alN) m1 (strip blN) m2 ∅).2.2).2.2).2.2).2.2 = (test_collision ti (strip arN) m1 (test_collision ti (strip alN) m1 (strip blN) m2 ∅).2.1 m2 (test_collision ti (test_collision ti (strip alN) m1 (strip blN) m2 ∅).1 m1 (strip brN) m2 (test_collision ti (strip alN) m1 (strip blN) m2 ∅).2.2).2.2).2.2 ∪ (test_collision ti (strip arN) m1 (strip brN) m2 ∅).2.2 := by rw [hc4]
                    -- cancellations
                    have hcc2b : orFlags (strip brN) (test_collision ti (strip alN) m1 (strip brN) m2 ∅).2.1 = (test_collision ti (strip alN) m1 (strip brN) m2 ∅).2.1 :=
                      orFlags_cancel brN _ hsK12b
                    have hcc3a : orFlags (strip arN) (test_collision ti (strip arN) m1 (strip blN) m2 ∅).1 = (test_collision ti (strip arN) m1 (strip blN) m2 ∅).1 :=
                      orFlags_cancel arN _ hsK21a
                    -- rewrite the goal
                    rw [hsa, hsb]
                    rw [test_collision_both ti m1 m2 s amn amx atr ac alN arN
                      bmn bmx btr bc blN brN _ _ _ _ rfl rfl rfl rfl hsep]
                    rw [test_collision_both ti m1 m2 ∅ amn amx atr false
                      (strip alN) (strip arN) bmn bmx btr false (strip blN)
                      (strip brN) _ _ _ _ rfl rfl rfl rfl hsep]
                    simp only [Prod.mk.injEq]
                    refine ⟨?_, ?_, ?_⟩
                    · rw [hr4a, hr3a, hr2a, hr1a, hc4a, hc3a, hcc3a, hc2a,
                        orFlags_mk]
                      simp only [Bool.or_true, orFlagsO]
                      rw [orFlags_assoc alN (test_collision ti (strip alN) m1 (strip blN) m2 ∅).1 (test_collision ti (strip alN) m1 (strip brN) m2 ∅).1 hsK11a hsK12a,
                        orFlags_assoc arN (test_collision ti (strip arN) m1 (strip blN) m2 ∅).1 (test_collision ti (strip arN) m1 (strip brN) m2 ∅).1 hsK21a hsK22a]
                    · rw [hr4b, hr3b, hr2b, hr1b, hc4b, hc3b, hc2b, hcc2b,
                        orFlags_mk]
                      simp only [Bool.or_true, orFlagsO]
                      rw [orFlags_assoc blN (test_collision ti (strip alN) m1 (strip blN) m2 ∅).2.1 (test_collision ti (strip arN) m1 (strip blN) m2 ∅).2.1 hsK11b hsK21b,
                        orFlags_assoc brN (test_collision ti (strip alN) m1 (strip brN) m2 ∅).2.1 (test_collision ti (strip arN) m1 (strip brN) m2 ∅).2.1 hsK12b hsK22b]
                    · rw [hr4t, hr3t, hr2t, hr1t, hc4t, hc3t, hc2t]
                      simp only [Finset.union_assoc]
  intro a b s
  exact key (nsize a + nsize b) a b s le_rfl

/-- All vertices of all triangles of a list, in iteration order. -/
def allVerts (tris : List Triangle) : List Vec4 :=
  tris.foldr (fun t acc => t.getVertices ++ acc) []

theorem mem_allVerts (tris : List Triangle) (v : Vec4) :
    v ∈ allVerts tris ↔ ∃ t ∈ tris, v ∈ t.getVertices := by
  induction tris with
  | nil => simp [allVerts]
  | cons t ts ih =>
    simp only [allVerts, List.foldr_cons, List.mem_append, List.mem_cons]
    rw [show ts.foldr (fun t acc => t.getVertices ++ acc) [] = allVerts ts from rfl]
    rw [ih]
    constructor
    · rintro (hv | ⟨u, hu, hv⟩)
      · exact ⟨t, Or.inl rfl, hv⟩
      · exact ⟨u, Or.inr hu, hv⟩
    · rintro ⟨u, (rfl | hu), hv⟩
      · exact Or.inl hv
      · exact Or.inr ⟨u, hu, hv⟩

theorem computeAABB_eq_foldl :
    ∀ (tris : List Triangle) (p : Vec4 × Vec4),
      tris.foldl
        (fun p tr => tr.getVertices.foldl
          (fun q v => (updMin q.1 v, updMax q.2 v)) p) p =
      (allVerts tris).foldl (fun q v => (updMin q.1 v, updMax q.2 v)) p := by
  intro tris
  induction tris with
  | nil => intro p; rfl
  | cons t ts ih =>
    intro p
    rw [List.foldl_cons, ih]
    rw [show allVerts (t :: ts) = t.getVertices ++ allVerts ts from rfl]
    rw [List.foldl_append]

/-- A point lies inside the box `[mn, mx]` on the three coordinate axes. -/
def inBox (mn mx v : Vec4) : Prop :=
  mn.x ≤ v.x ∧ v.x ≤ mx.x ∧ mn.y ≤ v.y ∧ v.y ≤ mx.y ∧ mn.z ≤ v.z ∧ v.z ≤ mx.z

theorem aabbFold_bounds :
    ∀ (l : List Vec4) (p : Vec4 × Vec4),
      ((l.foldl (fun q v => (updMin q.1 v, updMax q.2 v)) p).1.x ≤ p.1.x ∧
       (l.foldl (fun q v => (updMin q.1 v, updMax q.2 v)) p).1.y ≤ p.1.y ∧
       (l.foldl (fun q v => (updMin q.1 v, updMax q.2 v)) p).1.z ≤ p.1.z ∧
       p.2.x ≤ (l.foldl (fun q v => (updMin q.1 v, updMax q.2 v)) p).2.x ∧
       p.2.y ≤ (l.foldl (fun q v => (updMin q.1 v, updMax q.2 v)) p).2.y ∧
       p.2.z ≤ (l.foldl (fun q v => (updMin q.1 v, updMax q.2 v)) p).2.z) ∧
      ∀ v ∈ l, inBox (l.foldl (fun q v => (updMin q.1 v, updMax q.2 v)) p).1
        (l.foldl (fun q v => (updMin q.1 v, updMax q.2 v)) p).2 v := by
  intro l
  induction l with
  | nil =>
    intro p
    exact ⟨⟨le_refl _, le_refl _, le_refl _, le_refl _, le_refl _, le_refl _⟩,
      by intro v hv; simp at hv⟩
  | cons v l ih =>
    intro p
    rw [List.foldl_cons]
    obtain ⟨⟨m1, m2, m3, m4, m5, m6⟩, hmem⟩ := ih (updMin p.1 v, updMax p.2 v)
    simp only [updMin, updMax] at m1 m2 m3 m4 m5 m6
    refine ⟨⟨le_trans m1 (min_le_right _ _), le_trans m2 (min_le_right _ _),
      le_trans m3 (min_le_right _ _), le_trans (le_max_right _ _) m4,
      le_trans (le_max_right _ _) m5, le_trans (le_max_right _ _) m6⟩, ?_⟩
    intro u hu
    rcases List.mem_cons.mp hu with rfl | hu
    · exact ⟨le_trans m1 (min_le_left _ _), le_trans (le_max_left _ _) m4,
        le_trans m2 (min_le_left _ _), le_trans (le_max_left _ _) m5,
        le_trans m3 (min_le_left _ _), le_trans (le_max_left _ _) m6⟩
    · exact hmem u hu

/-- Every vertex of every listed triangle lies in the box computed by the AABB
setup loop of `construct` (and the initial point does too). -/
theorem computeAABB_bounds (tris : List Triangle) (init : Vec4) :
    (∀ t ∈ tris, ∀ v ∈ t.getVertices,
      inBox (computeAABB tris init).1 (computeAABB tris init).2 v) ∧
    inBox (computeAABB tris init).1 (computeAABB tris init).2 init := by
  rw [computeAABB, computeAABB_eq_foldl]
  obtain ⟨⟨m1, m2, m3, m4, m5, m6⟩, hmem⟩ := aabbFold_bounds (allVerts tris)
    (init, init)
  constructor
  · intro t ht v hv
    exact hmem v ((mem_allVerts tris v).mpr ⟨t, ht, hv⟩)
  · exact ⟨m1, m4, m2, m5, m3, m6⟩

/-- The fields common to both branches of `construct` on a non-empty list. -/
theorem construct_parts (t0 : Triangle) (ts : List Triangle) (d m : Int) :
    (construct (t0 :: ts) d m).get_min = (computeAABB (t0 :: ts) t0.v1).1 ∧
    (construct (t0 :: ts) d m).get_max = (computeAABB (t0 :: ts) t0.v1).2 ∧
    (construct (t0 :: ts) d m).get_triangles = t0 :: ts ∧
    (construct (t0 :: ts) d m).collision = false := by
  rw [construct_cons]
  by_cases hcond : splitLeft (chooseAxis (computeAABB (t0 :: ts) t0.v1).1
      (computeAABB (t0 :: ts) t0.v1).2).1
      (chooseAxis (computeAABB (t0 :: ts) t0.v1).1
        (computeAABB (t0 :: ts) t0.v1).2).2 (t0 :: ts) ≠ [] ∧
      splitRight (chooseAxis (computeAABB (t0 :: ts) t0.v1).1
        (computeAABB (t0 :: ts) t0.v1).2).1
      (chooseAxis (computeAABB (t0 :: ts) t0.v1).1
        (computeAABB (t0 :: ts) t0.v1).2).2 (t0 :: ts) ≠ [] ∧
      freshNodeDepth ≤ d
  · simp only [if_pos hcond]
    exact ⟨rfl, rfl, rfl, rfl⟩
  · simp only [if_neg hcond]
    exact ⟨rfl, rfl, rfl, rfl⟩

/-- The children dichotomy of `construct` on a non-empty list: either the
split succeeded and both children are recursive builds of the two candidate
subsets, or the node is a leaf and the guard failed. -/
theorem construct_children (t0 : Triangle) (ts : List Triangle) (d m : Int) :
    ((construct (t0 :: ts) d m).get_left =
        some (construct (buildSplit t0 ts).1
          (if toSizeT m ≤ (buildSplit t0 ts).1.length then d - 1 else 0) m) ∧
      (construct (t0 :: ts) d m).get_right =
        some (construct (buildSplit t0 ts).2
          (if toSizeT m ≤ (buildSplit t0 ts).2.length then d - 1 else 0) m) ∧
      (buildSplit t0 ts).1 ≠ [] ∧ (buildSplit t0 ts).2 ≠ [] ∧
      freshNodeDepth ≤ d) ∨
    ((construct (t0 :: ts) d m).get_left = none ∧
      (construct (t0 :: ts) d m).get_right = none ∧
      ¬((buildSplit t0 ts).1 ≠ [] ∧ (buildSplit t0 ts).2 ≠ [] ∧
        freshNodeDepth ≤ d)) := by
  rw [construct_cons]
  by_cases hcond : splitLeft (chooseAxis (computeAABB (t0 :: ts) t0.v1).1
      (computeAABB (t0 :: ts) t0.v1).2).1
      (chooseAxis (computeAABB (t0 :: ts) t0.v1).1
        (computeAABB (t0 :: ts) t0.v1).2).2 (t0 :: ts) ≠ [] ∧
      splitRight (chooseAxis (computeAABB (t0 :: ts) t0.v1).1
        (computeAABB (t0 :: ts) t0.v1).2).1
      (chooseAxis (computeAABB (t0 :: ts) t0.v1).1
        (computeAABB (t0 :: ts) t0.v1).2).2 (t0 :: ts) ≠ [] ∧
      freshNodeDepth ≤ d
  · simp only [if_pos hcond]
    exact Or.inl ⟨rfl, rfl, hcond.1, hcond.2.1, hcond.2.2⟩
  · simp only [if_neg hcond]
    exact Or.inr ⟨rfl, rfl, hcond⟩

/-- `Occurs n root`: the node `n` occurs in the tree rooted at `root`. -/
inductive Occurs : BVHNode → BVHNode → Prop where
  | refl (n : BVHNode) : Occurs n n
  | inLeft {n root l : BVHNode} (hl : root.get_left = some l)
      (h : Occurs n l) : Occurs n root
  | inRight {n root r : BVHNode} (hr : root.get_right = some r)
      (h : Occurs n r) : Occurs n root

/-- Every node of a constructed tree is itself the result of a `construct`
call on a non-empty triangle list. -/
theorem construct_shape :
    ∀ (N : Nat) (t0 : Triangle) (ts : List Triangle) (d m : Int) (node : BVHNode),
      (t0 :: ts).length ≤ N → Occurs node (construct (t0 :: ts) d m) →
      ∃ (u0 : Triangle) (us : List Triangle) (d2 : Int),
        node = construct (u0 :: us) d2 m := by
  intro N
  induction N with
  | zero => intro t0 ts d m node h; simp at h
  | succ N ihN =>
    intro t0 ts d m node hlen hocc
    cases hocc with
    | refl => exact ⟨t0, ts, d, rfl⟩
    | inLeft hl h =>
      rcases construct_children t0 ts d m with
        ⟨hcl, _, hne1, hne2, _⟩ | ⟨hcl, _, _⟩
      · rw [hcl] at hl
        rw [Option.some.injEq] at hl
        cases hsl : (buildSplit t0 ts).1 with
        | nil => exact absurd hsl hne1
        | cons u0 us =>
          have hlt : (buildSplit t0 ts).1.length < (t0 :: ts).length := by
            have := splitLeft_length_lt (chooseAxis (computeAABB (t0 :: ts)
              t0.v1).1 (computeAABB (t0 :: ts) t0.v1).2).1
              (chooseAxis (computeAABB (t0 :: ts) t0.v1).1
                (computeAABB (t0 :: ts) t0.v1).2).2 (t0 :: ts)
              (by
                have h2 := hne2
                rw [buildSplit] at h2
                exact h2)
            rw [buildSplit]
            exact this
          refine ihN u0 us
            (if toSizeT m ≤ (buildSplit t0 ts).1.length then d - 1 else 0)
            m node ?_ ?_
          · rw [← hsl]
            omega
          · rw [hsl] at hl
            rw [← hl] at h
            rw [hsl]
            exact h
      · rw [hcl] at hl
        exact absurd hl (by simp)
    | inRight hr h =>
      rcases construct_children t0 ts d m with
        ⟨_, hcr, hne1, hne2, _⟩ | ⟨_, hcr, _⟩
      · rw [hcr] at hr
        rw [Option.some.injEq] at hr
        cases hsr : (buildSplit t0 ts).2 with
        | nil => exact absurd hsr hne2
        | cons u0 us =>
          have hlt : (buildSplit t0 ts).2.length < (t0 :: ts).length := by
            have := splitRight_length_lt (chooseAxis (computeAABB (t0 :: ts)
              t0.v1).1 (computeAABB (t0 :: ts) t0.v1).2).1
              (chooseAxis (computeAABB (t0 :: ts) t0.v1).1
                (computeAABB (t0 :: ts) t0.v1).2).2 (t0 :: ts)
              (by
                have h1 := hne1
                rw [buildSplit] at h1
                exact h1)
            rw [buildSplit]
            exact this
          refine ihN u0 us
            (if toSizeT m ≤ (buildSplit t0 ts).2.length then d - 1 else 0)
            m node ?_ ?_
          · rw [← hsr]
            omega
          · rw [hsr] at hr
            rw [← hr] at h
            rw [hsr]
            exact h
      · rw [hcr] at hr
        exact absurd hr (by simp)

theorem nsize_leaf (n : BVHNode) (hl : n.get_left = none)
    (hr : n.get_right = none) : nsize n = 1 := by
  cases n with
  | mk mn mx tr c l r =>
    simp only [BVHNode.get_left] at hl
    simp only [BVHNode.get_right] at hr
    subst hl
    subst hr
    simp [nsize]

theorem construct_get_triangles (tris : List Triangle) (d m : Int)
    (h : tris ≠ []) : (construct tris d m).get_triangles = tris := by
  cases tris with
  | nil => exact absurd rfl h
  | cons t0 ts => exact (construct_parts t0 ts d m).2.2.1

theorem collision_orFlags (a m : BVHNode) :
    (orFlags a m).collision = (a.collision || m.collision) := by
  cases a with
  | mk mn mx tr c l r =>
    cases m with
    | mk mn2 mx2 tr2 c2 l2 r2 =>
      rw [orFlags_mk]
      rfl

/-- A collision flag already set on the first root stays set. -/
theorem test_mono_fst (ti : Triangle → Mat4 → Triangle → Mat4 → Bool)
    (m1 m2 : Mat4) (a b : BVHNode) (s : Finset Nat) (h : a.collision = true) :
    (test_collision ti a m1 b m2 s).1.collision = true := by
  rw [test_collision_decomp ti m1 m2 a b s]
  show (orFlags a (test_collision ti (strip a) m1 (strip b) m2 ∅).1).collision =
    true
  rw [collision_orFlags, h, Bool.true_or]

/-- A collision flag already set on the second root stays set. -/
theorem test_mono_snd (ti : Triangle → Mat4 → Triangle → Mat4 → Bool)
    (m1 m2 : Mat4) (a b : BVHNode) (s : Finset Nat) (h : b.collision = true) :
    (test_collision ti a m1 b m2 s).2.1.collision = true := by
  rw [test_collision_decomp ti m1 m2 a b s]
  show (orFlags b (test_collision ti (strip a) m1 (strip b) m2 ∅).2.1).collision =
    true
  rw [collision_orFlags, h, Bool.true_or]

/-- Claim C1: for every non-empty triangle list and every
min_triangles_for_split > 0, a build with max_depth = 0 returns a single
leaf node (no children, node count one); and in general a build returns an
internal node only when both candidate subsets are non-empty and the depth
budget is not exhausted (the guard of lines 129-130, with the fresh node's
depth modelled from the spec as 1). -/
theorem C1_depth_zero_single_leaf (t0 : Triangle) (ts : List Triangle)
    (m : Int) (hm : 0 < m) :
    ((construct (t0 :: ts) 0 m).get_left = none ∧
     (construct (t0 :: ts) 0 m).get_right = none ∧
     nsize (construct (t0 :: ts) 0 m) = 1) ∧
    (∀ d : Int,
      ((construct (t0 :: ts) d m).get_left ≠ none ∨
       (construct (t0 :: ts) d m).get_right ≠ none) →
      (buildSplit t0 ts).1 ≠ [] ∧ (buildSplit t0 ts).2 ≠ [] ∧
      freshNodeDepth ≤ d) := by
  constructor
  · rcases construct_children t0 ts 0 m with ⟨_, _, _, _, hd⟩ | ⟨hl, hr, _⟩
    · rw [freshNodeDepth] at hd
      omega
    · exact ⟨hl, hr, nsize_leaf _ hl hr⟩
  · intro d hne
    rcases construct_children t0 ts d m with ⟨_, _, h1, h2, h3⟩ | ⟨hl, hr, _⟩
    · exact ⟨h1, h2, h3⟩
    · rcases hne with h | h
      · exact absurd hl h
      · exact absurd hr h

/-- Claim C2: when the two transformed root boxes fail the per-axis overlap
test on some axis, test_collision returns immediately: both trees and the
triangle flag set come back exactly as they went in, so no node or triangle
collision flag anywhere is set by the invocation. -/
theorem C2_prune_no_flags (ti : Triangle → Mat4 → Triangle → Mat4 → Bool)
    (a : BVHNode) (m1 : Mat4) (b : BVHNode) (m2 : Mat4) (s : Finset Nat)
    (hsep : separated (mulMV m1 a.get_min) (mulMV m1 a.get_max)
      (mulMV m2 b.get_min) (mulMV m2 b.get_max)) :
    test_collision ti a m1 b m2 s = (a, b, s) :=
  test_collision_sep ti a m1 b m2 s hsep

/-- Claim C3: at every internal node of every constructed tree, the two
children's triangle lists are disjoint and partition the node's own list:
their lengths add up, every triangle of the node is in exactly one child. -/
theorem C3_partition (t0 : Triangle) (ts : List Triangle) (d m : Int)
    (node l r : BVHNode)
    (hocc : Occurs node (construct (t0 :: ts) d m))
    (hl : node.get_left = some l) (hr : node.get_right = some r) :
    l.get_triangles.length + r.get_triangles.length =
      node.get_triangles.length ∧
    (∀ t : Triangle, t ∈ node.get_triangles ↔
      (t ∈ l.get_triangles ∨ t ∈ r.get_triangles)) ∧
    (∀ t : Triangle, t ∈ l.get_triangles → t ∉ r.get_triangles) := by
  obtain ⟨u0, us, d2, hnode⟩ :=
    construct_shape (t0 :: ts).length t0 ts d m node le_rfl hocc
  subst hnode
  rcases construct_children u0 us d2 m with
    ⟨hcl, hcr, hne1, hne2, _⟩ | ⟨hcl, _, _⟩
  · rw [hcl, Option.some.injEq] at hl
    rw [hcr, Option.some.injEq] at hr
    have hlt : l.get_triangles = (buildSplit u0 us).1 := by
      rw [← hl]
      exact construct_get_triangles _ _ _ hne1
    have hrt : r.get_triangles = (buildSplit u0 us).2 := by
      rw [← hr]
      exact construct_get_triangles _ _ _ hne2
    have hnt : (construct (u0 :: us) d2 m).get_triangles = u0 :: us :=
      construct_get_triangles _ _ _ (by simp)
    obtain ⟨p, hb1, hb2⟩ : ∃ p : Triangle → Bool,
        (buildSplit u0 us).1 = (u0 :: us).filter p ∧
        (buildSplit u0 us).2 = (u0 :: us).filter (fun t => !(p t)) :=
      ⟨_, rfl, rfl⟩
    rw [hlt, hrt, hnt, hb1, hb2]
    refine ⟨length_filter_add_length_filter_not (u0 :: us) p, ?_, ?_⟩
    · intro t
      constructor
      · intro ht
        cases hpt : p t with
        | true => exact Or.inl (List.mem_filter.mpr ⟨ht, hpt⟩)
        | false =>
          refine Or.inr (List.mem_filter.mpr ⟨ht, ?_⟩)
          rw [hpt]
          rfl
      · rintro (h | h) <;> exact (List.mem_filter.mp h).1
    · intro t hmem1 hmem2
      have e1 := (List.mem_filter.mp hmem1).2
      have e2 := (List.mem_filter.mp hmem2).2
      rw [e1] at e2
      simp at e2
  · rw [hcl] at hl
    exact Option.noConfusion hl

/-- Claim C4: every coordinate of every vertex of every triangle referenced
by a node of a constructed tree lies inside the node's [min, max] box on all
three axes, and the box is exactly the one the AABB setup loop recomputes
from the node's own triangle list (seeded with its first triangle's first
vertex), not one inherited from a parent. -/
theorem C4_containment (t0 : Triangle) (ts : List Triangle) (d m : Int)
    (node : BVHNode) (hocc : Occurs node (construct (t0 :: ts) d m)) :
    (∀ t ∈ node.get_triangles, ∀ v ∈ t.getVertices,
      inBox node.get_min node.get_max v) ∧
    (∃ (u0 : Triangle) (us : List Triangle),
      node.get_triangles = u0 :: us ∧
      node.get_min = (computeAABB (u0 :: us) u0.v1).1 ∧
      node.get_max = (computeAABB (u0 :: us) u0.v1).2) := by
  obtain ⟨u0, us, d2, hnode⟩ :=
    construct_shape (t0 :: ts).length t0 ts d m node le_rfl hocc
  subst hnode
  obtain ⟨hmin, hmax, htris, _⟩ := construct_parts u0 us d2 m
  constructor
  · intro t ht v hv
    rw [htris] at ht
    rw [hmin, hmax]
    exact (computeAABB_bounds (u0 :: us) u0.v1).1 t ht v hv
  · exact ⟨u0, us, htris, hmin, hmax⟩

/-- Claim C10: in every constructed tree the left child is absent exactly
when the right child is absent (children are created both-or-neither), so
the left-only leaf test of test_collision classifies a node as a leaf
exactly when the spec's definition (no children on either side) does. -/
theorem C10_children_both_or_neither (t0 : Triangle) (ts : List Triangle)
    (d m : Int) (node : BVHNode)
    (hocc : Occurs node (construct (t0 :: ts) d m)) :
    (node.get_left = none ↔ node.get_right = none) ∧
    (node.get_left = none ↔
      (node.get_left = none ∧ node.get_right = none)) := by
  obtain ⟨u0, us, d2, hnode⟩ :=
    construct_shape (t0 :: ts).length t0 ts d m node le_rfl hocc
  subst hnode
  rcases construct_children u0 us d2 m with
    ⟨hcl, hcr, _, _, _⟩ | ⟨hcl, hcr, _⟩
  · rw [hcl, hcr]
    simp
  · rw [hcl, hcr]
    simp

/-- Claim C5: whenever the two transformed boxes of the current node pair
overlap on all three axes, test_collision sets both nodes' collision flags
to true unconditionally — for every triangle-intersection primitive,
including one that never reports an intersection, and before and
independently of any recursion. -/
theorem C5_overlap_marks_both_roots (ti : Triangle → Mat4 → Triangle → Mat4 → Bool)
    (m1 m2 : Mat4) (a b : BVHNode) (s : Finset Nat)
    (hov : ¬ separated (mulMV m1 a.get_min) (mulMV m1 a.get_max)
      (mulMV m2 b.get_min) (mulMV m2 b.get_max)) :
    (test_collision ti a m1 b m2 s).1.collision = true ∧
    (test_collision ti a m1 b m2 s).2.1.collision = true := by
  cases a with
  | mk amn amx atr ac al ar =>
    cases b with
    | mk bmn bmx btr bc bl br =>
      simp only [BVHNode.get_min, BVHNode.get_max] at hov
      cases al with
      | none =>
        cases bl with
        | none =>
          rw [test_collision_leafleaf ti m1 m2 s amn amx atr ac ar bmn bmx btr
            bc br hov]
          exact ⟨rfl, rfl⟩
        | some blN =>
          cases br with
          | none =>
            rw [test_collision_aleaf_mal ti m1 m2 s amn amx atr ac ar bmn bmx
              btr bc blN hov]
            exact ⟨rfl, rfl⟩
          | some brN =>
            rw [test_collision_aleaf ti m1 m2 s amn amx atr ac ar bmn bmx btr
              bc blN brN _ _ rfl rfl hov]
            constructor
            · apply test_mono_fst
              apply test_mono_fst
              rfl
            · rfl
      | some alN =>
        cases bl with
        | none =>
          cases ar with
          | none =>
            rw [test_collision_bleaf_mal ti m1 m2 s amn amx atr ac alN bmn bmx
              btr bc br hov]
            exact ⟨rfl, rfl⟩
          | some arN =>
            rw [test_collision_bleaf ti m1 m2 s amn amx atr ac alN arN bmn bmx
              btr bc br _ _ rfl rfl hov]
            constructor
            · rfl
            · apply test_mono_snd
              apply test_mono_snd
              rfl
        | some blN =>
          cases ar with
          | none =>
            rw [test_collision_both_mal ti m1 m2 s amn amx atr ac alN none bmn
              bmx btr bc blN br (Or.inl rfl) hov]
            exact ⟨rfl, rfl⟩
          | some arN =>
            cases br with
            | none =>
              rw [test_collision_both_mal ti m1 m2 s amn amx atr ac alN
                (some arN) bmn bmx btr bc blN none (Or.inr rfl) hov]
              exact ⟨rfl, rfl⟩
            | some brN =>
              rw [test_collision_both ti m1 m2 s amn amx atr ac alN arN bmn bmx
                btr bc blN brN _ _ _ _ rfl rfl rfl rfl hov]
              exact ⟨rfl, rfl⟩

/-- Claim C6: when both nodes of an overlapping pair are leaves (the source
tests only the left child being null), the double loop passes every pair
from the cross product of the two triangle lists to the external primitive
with no early exit, and flags exactly the triangles of the positive pairs:
an identity is in the output flag set iff it was already flagged, or some
pair reports positive and it is one of that pair's two triangles. -/
theorem C6_leaf_pairs_exhaustive (ti : Triangle → Mat4 → Triangle → Mat4 → Bool)
    (m1 m2 : Mat4) (a b : BVHNode) (s : Finset Nat)
    (ha : a.get_left = none) (hb : b.get_left = none)
    (hov : ¬ separated (mulMV m1 a.get_min) (mulMV m1 a.get_max)
      (mulMV m2 b.get_min) (mulMV m2 b.get_max)) :
    ∀ x : Nat, x ∈ (test_collision ti a m1 b m2 s).2.2 ↔
      (x ∈ s ∨ ∃ ta ∈ a.get_triangles, ∃ tb ∈ b.get_triangles,
        ti ta m1 tb m2 = true ∧ (x = ta.tid ∨ x = tb.tid)) := by
  cases a with
  | mk amn amx atr ac al ar =>
    cases b with
    | mk bmn bmx btr bc bl br =>
      simp only [BVHNode.get_left] at ha hb
      subst ha
      subst hb
      simp only [BVHNode.get_min, BVHNode.get_max] at hov
      intro x
      rw [test_collision_leafleaf ti m1 m2 s amn amx atr ac ar bmn bmx btr bc
        br hov]
      simp only [BVHNode.get_triangles]
      exact mem_markTris ti m1 m2 atr btr s x

/-- Claim C7: in the split loop, a triangle with all three coordinates along
the chosen axis at most split_coord goes left, one with all three strictly
greater goes right, and a straddling triangle goes left exactly when
split_coord minus its minimum coordinate is at least its maximum coordinate
minus split_coord, right otherwise. -/
theorem C7_straddle_heuristic (ax : Axis) (sc : Rat) (tr : Triangle)
    (tris : List Triangle) (htr : tr ∈ tris) :
    ((axisCoord ax tr.v1 ≤ sc ∧ axisCoord ax tr.v2 ≤ sc ∧
        axisCoord ax tr.v3 ≤ sc) →
      tr ∈ splitLeft ax sc tris ∧ tr ∉ splitRight ax sc tris) ∧
    ((sc < axisCoord ax tr.v1 ∧ sc < axisCoord ax tr.v2 ∧
        sc < axisCoord ax tr.v3) →
      tr ∈ splitRight ax sc tris ∧ tr ∉ splitLeft ax sc tris) ∧
    (¬(axisCoord ax tr.v1 ≤ sc ∧ axisCoord ax tr.v2 ≤ sc ∧
        axisCoord ax tr.v3 ≤ sc) →
     ¬(sc < axisCoord ax tr.v1 ∧ sc < axisCoord ax tr.v2 ∧
        sc < axisCoord ax tr.v3) →
      ((sc - min (axisCoord ax tr.v1)
          (min (axisCoord ax tr.v2) (axisCoord ax tr.v3)) ≥
        max (axisCoord ax tr.v1)
          (max (axisCoord ax tr.v2) (axisCoord ax tr.v3)) - sc) →
        tr ∈ splitLeft ax sc tris ∧ tr ∉ splitRight ax sc tris) ∧
      (¬(sc - min (axisCoord ax tr.v1)
          (min (axisCoord ax tr.v2) (axisCoord ax tr.v3)) ≥
        max (axisCoord ax tr.v1)
          (max (axisCoord ax tr.v2) (axisCoord ax tr.v3)) - sc) →
        tr ∈ splitRight ax sc tris ∧ tr ∉ splitLeft ax sc tris)) := by
  have hgl : goesLeft ax sc tr =
      (if axisCoord ax tr.v1 ≤ sc ∧ axisCoord ax tr.v2 ≤ sc ∧
          axisCoord ax tr.v3 ≤ sc then true
       else if sc < axisCoord ax tr.v1 ∧ sc < axisCoord ax tr.v2 ∧
          sc < axisCoord ax tr.v3 then false
       else
        decide (rSub sc (min (axisCoord ax tr.v1)
            (min (axisCoord ax tr.v2) (axisCoord ax tr.v3))) ≥
          rSub (max (axisCoord ax tr.v1)
            (max (axisCoord ax tr.v2) (axisCoord ax tr.v3))) sc)) := rfl
  have hL : goesLeft ax sc tr = true →
      tr ∈ splitLeft ax sc tris ∧ tr ∉ splitRight ax sc tris := by
    intro h
    refine ⟨List.mem_filter.mpr ⟨htr, h⟩, fun hc => ?_⟩
    have h2 := (List.mem_filter.mp hc).2
    rw [h] at h2
    simp at h2
  have hR : goesLeft ax sc tr = false →
      tr ∈ splitRight ax sc tris ∧ tr ∉ splitLeft ax sc tris := by
    intro h
    refine ⟨List.mem_filter.mpr ⟨htr, ?_⟩, fun hc => ?_⟩
    · rw [h]
      rfl
    · have h2 := (List.mem_filter.mp hc).2
      rw [h] at h2
      exact Bool.noConfusion h2
  refine ⟨?_, ?_, ?_⟩
  · intro hall
    exact hL (by rw [hgl, if_pos hall])
  · intro hall
    refine hR ?_
    rw [hgl, if_neg (fun hc => absurd hc.1 (not_le.mpr hall.1)), if_pos hall]
  · intro hno1 hno2
    constructor
    · intro hge
      apply hL
      rw [hgl, if_neg hno1, if_neg hno2, rSub_eq, rSub_eq]
      exact decide_eq_true hge
    · intro hlt
      apply hR
      rw [hgl, if_neg hno1, if_neg hno2, rSub_eq, rSub_eq]
      exact decide_eq_false hlt

/-- Claim C8: the split axis is a longest edge of the node's box, ties are
broken in the fixed priority order x, y, z (an axis earlier in the order
than the chosen one is strictly shorter), split_coord is the midpoint of the
chosen axis's extent, and a degenerate box (min = max) legally resolves to
the x axis by that priority. -/
theorem C8_axis_selection (mn mx : Vec4) :
    (∀ a : Axis, axisLen a mn mx ≤ axisLen (chooseAxis mn mx).1 mn mx) ∧
    (∀ a : Axis, axisIdx a < axisIdx (chooseAxis mn mx).1 →
      axisLen a mn mx < axisLen (chooseAxis mn mx).1 mn mx) ∧
    (chooseAxis mn mx).2 =
      (axisCoord (chooseAxis mn mx).1 mn + axisCoord (chooseAxis mn mx).1 mx)
        / 2 ∧
    (mn = mx → (chooseAxis mn mx).1 = Axis.x) := by
  have hca : chooseAxis mn mx =
      (if axisLen Axis.x mn mx ≥ axisLen Axis.y mn mx ∧
          axisLen Axis.x mn mx ≥ axisLen Axis.z mn mx then
        (Axis.x, rDiv (rAdd mn.x mx.x) 2)
       else if axisLen Axis.y mn mx ≥ axisLen Axis.x mn mx ∧
          axisLen Axis.y mn mx ≥ axisLen Axis.z mn mx then
        (Axis.y, rDiv (rAdd mn.y mx.y) 2)
       else (Axis.z, rDiv (rAdd mn.z mx.z) 2)) := rfl
  have hdeg : ∀ q : Rat, ratAbs (rSub q q) = 0 := by
    intro q
    rw [rSub_eq, sub_self, ratAbs]
    simp
  by_cases h1 : axisLen Axis.x mn mx ≥ axisLen Axis.y mn mx ∧
      axisLen Axis.x mn mx ≥ axisLen Axis.z mn mx
  · have hax : (chooseAxis mn mx).1 = Axis.x := by rw [hca, if_pos h1]
    have hsc : (chooseAxis mn mx).2 = rDiv (rAdd mn.x mx.x) 2 := by
      rw [hca, if_pos h1]
    rw [hax, hsc]
    refine ⟨?_, ?_, ?_, fun _ => rfl⟩
    · intro a
      cases a with
      | x => exact le_refl _
      | y => exact h1.1
      | z => exact h1.2
    · intro a ha
      cases a <;> simp only [axisIdx] at ha <;> exact absurd ha (by omega)
    · rw [rDiv_eq, rAdd_eq]
      rfl
  · by_cases h2 : axisLen Axis.y mn mx ≥ axisLen Axis.x mn mx ∧
        axisLen Axis.y mn mx ≥ axisLen Axis.z mn mx
    · have hax : (chooseAxis mn mx).1 = Axis.y := by
        rw [hca, if_neg h1, if_pos h2]
      have hsc : (chooseAxis mn mx).2 = rDiv (rAdd mn.y mx.y) 2 := by
        rw [hca, if_neg h1, if_pos h2]
      rw [hax, hsc]
      have hxy : axisLen Axis.x mn mx < axisLen Axis.y mn mx := by
        rcases not_and_or.mp h1 with h | h
        · exact lt_of_not_ge h
        · exact lt_of_lt_of_le (lt_of_not_ge h) h2.2
      refine ⟨?_, ?_, ?_, ?_⟩
      · intro a
        cases a with
        | x => exact h2.1
        | y => exact le_refl _
        | z => exact h2.2
      · intro a ha
        cases a with
        | x => exact hxy
        | y => simp only [axisIdx] at ha; exact absurd ha (by omega)
        | z => simp only [axisIdx] at ha; exact absurd ha (by omega)
      · rw [rDiv_eq, rAdd_eq]
        rfl
      · intro hdg
        have h0 : ∀ a : Axis, axisLen a mn mx = 0 := by
          intro a
          rw [hdg]
          exact hdeg (axisCoord a mx)
        exact absurd ⟨by rw [h0 Axis.x, h0 Axis.y],
          by rw [h0 Axis.x, h0 Axis.z]⟩ h1
    · have hax : (chooseAxis mn mx).1 = Axis.z := by
        rw [hca, if_neg h1, if_neg h2]
      have hsc : (chooseAxis mn mx).2 = rDiv (rAdd mn.z mx.z) 2 := by
        rw [hca, if_neg h1, if_neg h2]
      rw [hax, hsc]
      have hyz : axisLen Axis.y mn mx < axisLen Axis.z mn mx := by
        rcases not_and_or.mp h2 with h | h
        · have hyx := lt_of_not_ge h
          rcases not_and_or.mp h1 with h' | h'
          · exact absurd (le_of_lt hyx) h'
          · exact lt_trans hyx (lt_of_not_ge h')
        · exact lt_of_not_ge h
      have hxz : axisLen Axis.x mn mx < axisLen Axis.z mn mx := by
        rcases not_and_or.mp h1 with h | h
        · exact lt_trans (lt_of_not_ge h) hyz
        · exact lt_of_not_ge h
      refine ⟨?_, ?_, ?_, ?_⟩
      · intro a
        cases a with
        | x => exact le_of_lt hxz
        | y => exact le_of_lt hyz
        | z => exact le_refl _
      · intro a ha
        cases a with
        | x => exact hxz
        | y => exact hyz
        | z => simp only [axisIdx] at ha; exact absurd ha (by omega)
      · rw [rDiv_eq, rAdd_eq]
        rfl
      · intro hdg
        have h0 : ∀ a : Axis, axisLen a mn mx = 0 := by
          intro a
          rw [hdg]
          exact hdeg (axisCoord a mx)
        exact absurd ⟨by rw [h0 Axis.x, h0 Axis.y],
          by rw [h0 Axis.x, h0 Axis.z]⟩ h1

/-- Claim C9: test_collision only turns collision flags from false to true —
both output trees dominate their inputs flag-wise on an identical skeleton
and the output flag set contains the input set — and running it a second
time on its own output (same matrices, no reset) changes nothing. -/
theorem C9_flags_monotone_idempotent (ti : Triangle → Mat4 → Triangle → Mat4 → Bool)
    (m1 m2 : Mat4) (a b : BVHNode) (s : Finset Nat) :
    flagsLE a (test_collision ti a m1 b m2 s).1 ∧
    flagsLE b (test_collision ti a m1 b m2 s).2.1 ∧
    s ⊆ (test_collision ti a m1 b m2 s).2.2 ∧
    test_collision ti (test_collision ti a m1 b m2 s).1 m1
        (test_collision ti a m1 b m2 s).2.1 m2
        (test_collision ti a m1 b m2 s).2.2 =
      test_collision ti a m1 b m2 s := by
  have hd := test_collision_decomp ti m1 m2 a b s
  have h1 : (test_collision ti a m1 b m2 s).1 =
      orFlags a (test_collision ti (strip a) m1 (strip b) m2 ∅).1 := by
    rw [hd]
  have h2 : (test_collision ti a m1 b m2 s).2.1 =
      orFlags b (test_collision ti (strip a) m1 (strip b) m2 ∅).2.1 := by
    rw [hd]
  have h3 : (test_collision ti a m1 b m2 s).2.2 =
      s ∪ (test_collision ti (strip a) m1 (strip b) m2 ∅).2.2 := by
    rw [hd]
  refine ⟨?_, ?_, ?_, ?_⟩
  · rw [h1]
    exact flagsLE_orFlags a _
  · rw [h2]
    exact flagsLE_orFlags b _
  · rw [h3]
    exact Finset.subset_union_left
  · rw [h1, h2, h3]
    have hd2 := test_collision_decomp ti m1 m2
      (orFlags a (test_collision ti (strip a) m1 (strip b) m2 ∅).1)
      (orFlags b (test_collision ti (strip a) m1 (strip b) m2 ∅).2.1)
      (s ∪ (test_collision ti (strip a) m1 (strip b) m2 ∅).2.2)
    rw [strip_orFlags a _, strip_orFlags b _] at hd2
    rw [hd2, hd]
    rw [orFlags_or_self, orFlags_or_self, Finset.union_assoc, Finset.union_self]

end SealedArith

/-- The identity model matrix, for concrete examples. -/
def idMat : Mat4 :=
  ⟨⟨1, 0, 0, 0⟩, ⟨0, 1, 0, 0⟩, ⟨0, 0, 1, 0⟩, ⟨0, 0, 0, 1⟩⟩

/-- A concrete triangle near the origin. -/
def tri0 : Triangle := ⟨0, ⟨0, 0, 0, 1⟩, ⟨1, 0, 0, 1⟩, ⟨0, 1, 0, 1⟩⟩

/-- A concrete triangle far away on the x axis. -/
def tri1 : Triangle := ⟨1, ⟨10, 0, 0, 1⟩, ⟨11, 0, 0, 1⟩, ⟨10, 1, 0, 1⟩⟩

/-- A concrete triangle straddling the plane x = 1. -/
def triS : Triangle := ⟨2, ⟨0, 0, 0, 1⟩, ⟨3, 0, 0, 1⟩, ⟨0, 1, 0, 1⟩⟩

/-- A concrete leaf node around the origin. -/
def leafA : BVHNode :=
  .mk ⟨0, 0, 0, 1⟩ ⟨1, 1, 1, 1⟩ [tri0] false none none

/-- A concrete leaf node far away on the x axis. -/
def leafB : BVHNode :=
  .mk ⟨10, 0, 0, 1⟩ ⟨11, 1, 1, 1⟩ [tri1] false none none

/-- A concrete leaf node overlapping `leafA`. -/
def leafC : BVHNode :=
  .mk ⟨0, 0, 0, 1⟩ ⟨1, 1, 1, 1⟩ [tri1] false none none

/-- Witness for C1: building one triangle with max_depth 0 and
min_triangles_for_split 1 yields a single leaf. -/
theorem C1_depth_zero_single_leaf_witness :
    (0 : Int) < 1 ∧
    ((construct [tri0] 0 1).get_left = none ∧
     (construct [tri0] 0 1).get_right = none ∧
     nsize (construct [tri0] 0 1) = 1) :=
  ⟨by decide, (C1_depth_zero_single_leaf tri0 [] 1 (by decide)).1⟩

/-- Witness for C2: two far-apart concrete leaves are separated and the
call leaves trees and flag set untouched. -/
theorem C2_prune_no_flags_witness :
    separated (mulMV idMat leafA.get_min) (mulMV idMat leafA.get_max)
      (mulMV idMat leafB.get_min) (mulMV idMat leafB.get_max) ∧
    test_collision (fun _ _ _ _ => true) leafA idMat leafB idMat ∅ =
      (leafA, leafB, ∅) :=
  ⟨by decide,
   C2_prune_no_flags (fun _ _ _ _ => true) leafA idMat leafB idMat ∅
     (by decide)⟩

/-- Witness for C3: the root of a concrete two-triangle build has one
triangle in each child, adding up to its own two. -/
theorem C3_partition_witness :
    (construct [tri0, tri1] 5 1).get_left = some (construct [tri0] 4 1) ∧
    (construct [tri0, tri1] 5 1).get_right = some (construct [tri1] 4 1) ∧
    (construct [tri0] 4 1).get_triangles.length +
        (construct [tri1] 4 1).get_triangles.length =
      (construct [tri0, tri1] 5 1).get_triangles.length :=
  ⟨by rfl, by rfl,
   (C3_partition tri0 [tri1] 5 1 (construct [tri0, tri1] 5 1)
     (construct [tri0] 4 1) (construct [tri1] 4 1) (Occurs.refl _) (by rfl)
     (by rfl)).1⟩

/-- Witness for C4: a vertex of the one triangle of a concrete build lies
inside the root's box. -/
theorem C4_containment_witness :
    tri0 ∈ (construct [tri0] 0 1).get_triangles ∧
    tri0.v2 ∈ tri0.getVertices ∧
    inBox (construct [tri0] 0 1).get_min (construct [tri0] 0 1).get_max
      tri0.v2 :=
  ⟨by decide, by decide,
   (C4_containment tri0 [] 0 1 (construct [tri0] 0 1) (Occurs.refl _)).1 tri0
     (by decide) tri0.v2 (by decide)⟩

/-- Witness for C5: two overlapping concrete leaves both get their collision
flags set even under a primitive that never reports an intersection. -/
theorem C5_overlap_marks_both_roots_witness :
    ¬ separated (mulMV idMat leafA.get_min) (mulMV idMat leafA.get_max)
      (mulMV idMat leafC.get_min) (mulMV idMat leafC.get_max) ∧
    ((test_collision (fun _ _ _ _ => false) leafA idMat leafC idMat
        ∅).1.collision = true ∧
     (test_collision (fun _ _ _ _ => false) leafA idMat leafC idMat
        ∅).2.1.collision = true) :=
  ⟨by decide,
   C5_overlap_marks_both_roots (fun _ _ _ _ => false) idMat idMat leafA leafC
     ∅ (by decide)⟩

/-- Witness for C6: under an always-true primitive the pair (tri0, tri1) of
two overlapping concrete leaves flags tri1's identity. -/
theorem C6_leaf_pairs_exhaustive_witness :
    leafA.get_left = none ∧ leafC.get_left = none ∧
    tri1.tid ∈ (test_collision (fun _ _ _ _ => true) leafA idMat leafC idMat
      ∅).2.2 :=
  ⟨rfl, rfl,
   (C6_leaf_pairs_exhaustive (fun _ _ _ _ => true) idMat idMat leafA leafC ∅
       rfl rfl (by decide) tri1.tid).mpr
     (Or.inr ⟨tri0, by decide, tri1, by decide, rfl, Or.inr rfl⟩)⟩

/-- Witness for C7: a concrete triangle straddling x = 1 whose overshoot is
larger on the right goes to the right subset. -/
theorem C7_straddle_heuristic_witness :
    triS ∈ [triS] ∧
    (triS ∈ splitRight Axis.x 1 [triS] ∧ triS ∉ splitLeft Axis.x 1 [triS]) :=
  ⟨by decide,
   ((C7_straddle_heuristic Axis.x 1 triS [triS] (by decide)).2.2 (by decide)
       (by decide)).2
     (by rw [← rSub_eq, ← rSub_eq]; decide)⟩

/-- Witness for C10: a child node of a concrete build has its two children
both absent or both present. -/
theorem C10_children_both_or_neither_witness :
    (construct [tri0, tri1] 5 1).get_left = some (construct [tri0] 4 1) ∧
    ((construct [tri0] 4 1).get_left = none ↔
      (construct [tri0] 4 1).get_right = none) :=
  ⟨by rfl,
   (C10_children_both_or_neither tri0 [tri1] 5 1 (construct [tri0] 4 1)
     (Occurs.inLeft (by rfl) (Occurs.refl _))).1⟩
